import Mathlib

/-! iconvtest: the round-trip classifier `test_char` and the sweep `test_nonrepresentable`

A shallow embedding of `iconvtest.c`.  The C library (`iconv_open`, `iconv`,
`iconv_close`, `iconvctl`, `strerror`, the value of `EILSEQ`) is external to the
program and is a parameter of every definition (`Libc`).  The library is stateful:
every call threads an engine state of an arbitrary type `σ`.  Every library call the
program makes is appended to a call log and every `printf` to an output log, so that
statements about which handle is used and what is printed can be made.

Conventions
* `size_t` is 64 bits wide; `a - b` on `size_t` is `size_sub a b`.
* `unsigned` is 32 bits wide.
* a `char` buffer is a `List Nat` holding the value of each byte read as
  `unsigned char`; reading at an index is `getD _ 0`.
* `iconv_t` values are modelled by integers, `(iconv_t)-1` by `-1`, `NULL` by `0`.
-/

namespace Iconvtest

/-! ## Machine integers -/

/-- Modulus of `size_t` arithmetic. -/
def SIZE_MOD : Nat := 2 ^ 64

/-- The value `(size_t)-1`. -/
def SIZE_T_MINUS_ONE : Nat := 2 ^ 64 - 1

/-- Subtraction `a - b` of two `size_t` values, wrapping modulo `2 ^ 64`. -/
def size_sub (a b : Nat) : Nat :=
  (a % SIZE_MOD + (SIZE_MOD - b % SIZE_MOD)) % SIZE_MOD

/-- Modulus of `unsigned` arithmetic. -/
def UINT_MOD : Nat := 2 ^ 32

/-! ## The C library -/

/-- Conversion descriptor `iconv_t`, modelled by the integer value of the pointer. -/
abbrev iconv_t := Int

/-- The value `(iconv_t)-1` that `iconv_open` returns on failure. -/
def ICONV_T_MINUS_ONE : iconv_t := -1

/-- The null pointer passed as `cd_setup_back` by the first stage of the sweep. -/
def NULL : iconv_t := 0

/-- What one call `iconv(cd, &inbuf, &inbytesleft, &outbuf, &outbytesleft)` leaves behind,
as far as the program looks at it: the returned `size_t`, the value of `errno` after the
call, the updated `outbytesleft`, how far the pointer `outbuf` was advanced, and the
contents of the output buffer after the call. -/
structure IconvResult where
  res : Nat
  errno : Int
  outbytesleft : Nat
  outadv : Nat
  outbuf : List Nat
deriving DecidableEq, Repr

/-- What one call `iconvctl(cd, request, &arg)` leaves behind: the returned `int`, the
value of `*arg` after the call and the value of `errno` after the call. -/
structure IconvctlResult where
  ret : Int
  arg : Int
  errno : Int
deriving DecidableEq, Repr

/-- The C library the program is linked against, over an engine state `σ`.
`USE_ICONVCTL` says whether the program was compiled with that symbol defined (it is
defined exactly when `__APPLE__` is); the `ICONV_*` request codes come from the
platform header. -/
structure Libc (σ : Type) where
  EILSEQ : Int
  strerror : Int → String
  iconv_open : String → String → σ → iconv_t × σ
  iconv : iconv_t → List Nat → Nat → Nat → σ → IconvResult × σ
  iconv_close : iconv_t → σ → Int × σ
  USE_ICONVCTL : Bool
  iconvctl : iconv_t → Int → Int → σ → IconvctlResult × σ
  ICONV_GET_TRANSLITERATE : Int
  ICONV_SET_TRANSLITERATE : Int
  ICONV_GET_DISCARD_ILSEQ : Int
  ICONV_GET_ILSEQ_INVALID : Int
  ICONV_SET_ILSEQ_INVALID : Int

/-! ## Observable effects -/

/-- One argument of a `printf` call. -/
inductive Arg where
  | uint (n : Nat)
  | int (i : Int)
  | str (s : String)
deriving DecidableEq, Repr

/-- One `printf` call: the format string and the arguments. -/
structure Printf where
  fmt : String
  args : List Arg
deriving DecidableEq, Repr

/-- One call into the conversion library, with the arguments the program passed. -/
inductive Call where
  | iconv_open (tocode fromcode : String)
  | iconv (cd : iconv_t) (inbuf : List Nat) (inbytesleft outbytesleft : Nat)
  | iconv_close (cd : iconv_t)
  | iconvctl (cd : iconv_t) (request : Int) (arg : Int)
deriving DecidableEq, Repr

/-- The state a run threads: engine state, the log of library calls made so far and the
log of `printf` calls made so far (both oldest first). -/
structure World (σ : Type) where
  eng : σ
  calls : List Call
  out : List Printf

/-- The global variables of the program. -/
structure Globals where
  SOURCE_ENCODING : String
  TARGET_ENCODING : String
  DISABLE_TRANSLITERATION : Int
  ENABLE_TRANSLITERATION : Int
  ENABLE_ILSEQ_INVALID : Int
  DISABLE_ILSEQ_INVALID : Int

variable {σ : Type}

/-- The call `printf(fmt, args...)`. -/
def printf (fmt : String) (args : List Arg) (w : World σ) : World σ :=
  { w with out := w.out ++ [⟨fmt, args⟩] }

/-- The statement `if (verbose) printf(fmt, args...)`. -/
def printf_if (verbose : Int) (fmt : String) (args : List Arg) (w : World σ) : World σ :=
  if verbose ≠ 0 then printf fmt args w else w

/-- The call `iconv(cd, &inbuf, &inbytesleft, &outbuf, &outbytesleft)`. -/
def call_iconv (L : Libc σ) (cd : iconv_t) (inbuf : List Nat) (inbytesleft outbytesleft : Nat)
    (w : World σ) : IconvResult × World σ :=
  let r := L.iconv cd inbuf inbytesleft outbytesleft w.eng
  (r.1, { w with eng := r.2, calls := w.calls ++ [Call.iconv cd inbuf inbytesleft outbytesleft] })

/-- The call `iconv_open(tocode, fromcode)`. -/
def call_iconv_open (L : Libc σ) (tocode fromcode : String) (w : World σ) : iconv_t × World σ :=
  let r := L.iconv_open tocode fromcode w.eng
  (r.1, { w with eng := r.2, calls := w.calls ++ [Call.iconv_open tocode fromcode] })

/-- The call `iconv_close(cd)`. -/
def call_iconv_close (L : Libc σ) (cd : iconv_t) (w : World σ) : Int × World σ :=
  let r := L.iconv_close cd w.eng
  (r.1, { w with eng := r.2, calls := w.calls ++ [Call.iconv_close cd] })

/-- The call `iconvctl(cd, request, &arg)`. -/
def call_iconvctl (L : Libc σ) (cd : iconv_t) (request arg : Int) (w : World σ) :
    IconvctlResult × World σ :=
  let r := L.iconvctl cd request arg w.eng
  (r.1, { w with eng := r.2, calls := w.calls ++ [Call.iconvctl cd request arg] })

/-- The call `memcmp(a, b, n)` from byte `i` on: the difference of the first pair of
bytes that differ among the `n` bytes left, `0` when there is none. -/
def memcmp_from (a b : List Nat) (i : Nat) : Nat → Int
  | 0 => 0
  | n + 1 =>
    if a.getD i 0 ≠ b.getD i 0 then (a.getD i 0 : Int) - (b.getD i 0 : Int)
    else memcmp_from a b (i + 1) n

/-- The call `memcmp(a, b, n)`. -/
def memcmp (a b : List Nat) (n : Nat) : Int := memcmp_from a b 0 n

/-! ## `test_char` -/

/-- The body of the diagnostic `while` loop of `test_char` for the 4-byte group at `s`:
`u1 = 0; u1 += (*s++) << 24; u1 += (*s++) << 16; u1 += (*s++) << 8; u1 += (*s++) << 0`. -/
def decode_group (buf32 : List Nat) (s : Nat) : Nat :=
  let u1 := 0
  let u1 := (u1 + buf32.getD s 0 <<< 24) % UINT_MOD
  let u1 := (u1 + buf32.getD (s + 1) 0 <<< 16) % UINT_MOD
  let u1 := (u1 + buf32.getD (s + 2) 0 <<< 8) % UINT_MOD
  let u1 := (u1 + buf32.getD (s + 3) 0 <<< 0) % UINT_MOD
  u1

/-- The loop `while ((unsigned char *)outbuf - s >= 4) { ...; printf(" U+%04x", u1); }`,
where `outbuf` is `outadv` bytes past the start of `buf32` and `s` is the offset of the
read pointer. -/
def print_groups (buf32 : List Nat) (outadv : Nat) (s : Nat) (w : World σ) : World σ :=
  if (outadv : Int) - (s : Int) ≥ 4 then
    print_groups buf32 outadv (s + 4) (printf " U+%04x" [Arg.uint (decode_group buf32 s)] w)
  else w
termination_by outadv - s
decreasing_by omega

/-- The loop `for (int i = 0; i < n; i++) printf("%02x", ((unsigned char *)buf)[i])`. -/
def print_hex (buf : List Nat) (n : Nat) (w : World σ) : World σ :=
  (List.range n).foldl (fun w i => printf "%02x" [Arg.uint (buf.getD i 0)] w) w

/-- The verbose block of the `REPLACED` branch of `test_char`: it prints the line and
converts the round-tripped bytes with `cd_setup_back` for the diagnostics. -/
def print_replaced (L : Libc σ) (G : Globals) (u : Nat) (input : List Nat) (inputbytes : Nat)
    (input_back : List Nat) (blen : Nat) (cd_setup_back : iconv_t) (w : World σ) : World σ :=
  let w := printf "REPLACED U+%04x ->" [Arg.uint u] w
  let buf32len := 32
  let r := call_iconv L cd_setup_back input_back blen buf32len w
  let w := print_groups r.1.outbuf r.1.outadv 0 r.2
  let w := printf ", %s " [Arg.str G.SOURCE_ENCODING] w
  let w := print_hex input inputbytes w
  let w := printf " -> " [] w
  let w := print_hex input_back blen w
  printf "\n" [] w

/-- What `test_char` hands back: the returned `int`, the contents of the buffer `output`
and the value stored in `*outputbytes`. -/
structure TestChar where
  ret : Int
  output : List Nat
  outputbytes : Nat
deriving DecidableEq, Repr

/-- The function `test_char(cd, cd_back, u, input, inputbytes, output, outbuflen,
outputbytes, verbose, cd_setup_back)`.  In the source the `return -1` of the forward error
path stands after the statement `if (errno == EILSEQ) { ... return 1; } else if (verbose)
printf(...);`, not inside the `else`: it is reached exactly when `errno` is not `EILSEQ`,
whatever `verbose` is. -/
def test_char (L : Libc σ) (G : Globals) (cd cd_back : iconv_t) (u : Nat)
    (input : List Nat) (inputbytes : Nat) (outbuflen : Nat)
    (verbose : Int) (cd_setup_back : iconv_t) (w : World σ) : TestChar × World σ :=
  let backbytes := 32
  let r := call_iconv L cd input inputbytes outbuflen w
  let res := r.1
  let w := r.2
  let outputbytes := size_sub outbuflen res.outbytesleft
  if res.res = SIZE_T_MINUS_ONE then
    if res.errno = L.EILSEQ then
      (⟨1, res.outbuf, outputbytes⟩, printf_if verbose "EILSEQ U+%04x\n" [Arg.uint u] w)
    else
      (⟨-1, res.outbuf, outputbytes⟩, printf_if verbose "ERROR U+%04x\n" [Arg.uint u] w)
  else if outputbytes = 0 then
    (⟨1, res.outbuf, outputbytes⟩, printf_if verbose "DISCARDED U+%04x\n" [Arg.uint u] w)
  else
    let rb := call_iconv L cd_back res.outbuf outputbytes backbytes w
    let resb := rb.1
    let w := rb.2
    if resb.res = SIZE_T_MINUS_ONE then
      (⟨-1, res.outbuf, outputbytes⟩,
        printf_if verbose "BACK-ERROR U+%04x %s\n" [Arg.uint u, Arg.str (L.strerror resb.errno)] w)
    else
      let blen := size_sub backbytes resb.outbytesleft
      if blen = 0 then
        (⟨-1, res.outbuf, outputbytes⟩,
          printf_if verbose "BACK-DISCARDED-ERROR U+%04x\n" [Arg.uint u] w)
      else if blen ≠ inputbytes ∨ memcmp input resb.outbuf inputbytes ≠ 0 then
        (⟨2, res.outbuf, outputbytes⟩,
          if verbose ≠ 0 then
            print_replaced L G u input inputbytes resb.outbuf blen cd_setup_back w
          else w)
      else
        (⟨0, res.outbuf, outputbytes⟩, w)

/-! ## `test_nonrepresentable` -/

/-- The function `report_iconvctl(cd, code, msg)` (compiled only under `USE_ICONVCTL`). -/
def report_iconvctl (L : Libc σ) (cd : iconv_t) (code : Int) (msg : String) (w : World σ) :
    World σ :=
  let res := -2
  let r := call_iconvctl L cd code res w
  if r.1.ret = 0 then
    printf "iconvctl %s %d\n" [Arg.str msg, Arg.int r.1.arg] r.2
  else
    printf "iconvctl %s failed: %s\n" [Arg.str msg, Arg.str (L.strerror r.1.errno)] r.2

/-- The block `if (ENABLE_TRANSLITERATION || DISABLE_TRANSLITERATION) { ... }`. -/
def set_transliterate (L : Libc σ) (G : Globals) (cd : iconv_t) (w : World σ) : World σ :=
  if G.ENABLE_TRANSLITERATION ≠ 0 ∨ G.DISABLE_TRANSLITERATION ≠ 0 then
    let w := printf "transliteration: %s\n"
      [Arg.str (if G.ENABLE_TRANSLITERATION ≠ 0 then "enable" else "disable")] w
    let w := report_iconvctl L cd L.ICONV_GET_TRANSLITERATE "ICONV_GET_TRANSLITERATE" w
    let arg := if G.ENABLE_TRANSLITERATION ≠ 0 then 1 else 0
    let r := call_iconvctl L cd L.ICONV_SET_TRANSLITERATE arg w
    if r.1.ret = 0 then
      printf "iconvctl ICONV_SET_TRANSLITERATE %d succeeded.\n" [Arg.int r.1.arg] r.2
    else
      printf "iconvctl ICONV_SET_TRANSLITERATE %d failed: %s\n"
        [Arg.int r.1.arg, Arg.str (L.strerror r.1.errno)] r.2
  else w

/-- The block `if (ENABLE_ILSEQ_INVALID || DISABLE_ILSEQ_INVALID) { ... }`. -/
def set_ilseq_invalid (L : Libc σ) (G : Globals) (cd : iconv_t) (w : World σ) : World σ :=
  if G.ENABLE_ILSEQ_INVALID ≠ 0 ∨ G.DISABLE_ILSEQ_INVALID ≠ 0 then
    let w := printf "ilseq invalid: %s\n"
      [Arg.str (if G.ENABLE_ILSEQ_INVALID ≠ 0 then "enable" else "disable")] w
    let w := report_iconvctl L cd L.ICONV_GET_ILSEQ_INVALID "ICONV_GET_ILSEQ_INVALID" w
    let arg := if G.ENABLE_ILSEQ_INVALID ≠ 0 then 1 else 0
    let r := call_iconvctl L cd L.ICONV_SET_ILSEQ_INVALID arg w
    if r.1.ret = 0 then
      printf "iconvctl ICONV_SET_ILSEQ_INVALID %d succeeded.\n" [Arg.int r.1.arg] r.2
    else
      printf "iconvctl ICONV_SET_ILSEQ_INVALID %d failed: %s\n"
        [Arg.int r.1.arg, Arg.str (L.strerror r.1.errno)] r.2
  else w

/-- The part of `test_nonrepresentable` between `#ifdef USE_ICONVCTL` and `#endif`. -/
def iconvctl_section (L : Libc σ) (G : Globals) (cd : iconv_t) (w : World σ) : World σ :=
  let w := set_transliterate L G cd w
  let w := set_ilseq_invalid L G cd w
  let w := report_iconvctl L cd L.ICONV_GET_TRANSLITERATE "ICONV_GET_TRANSLITERATE" w
  let w := report_iconvctl L cd L.ICONV_GET_DISCARD_ILSEQ "ICONV_GET_DISCARD_ILSEQ" w
  report_iconvctl L cd L.ICONV_GET_ILSEQ_INVALID "ICONV_GET_ILSEQ_INVALID" w

/-- The four bytes the sweep stores in `u32` for the code point `u`. -/
def u32_bytes (u : Nat) : List Nat :=
  [(u >>> 24) &&& 0xff, (u >>> 16) &&& 0xff, (u >>> 8) &&& 0xff, (u >>> 0) &&& 0xff]

/-- The body of the `for` loop of `test_nonrepresentable` for the code point `u`. -/
def sweep_body (L : Libc σ) (G : Globals) (cd_setup cd_setup_back cd cd_back : iconv_t)
    (u : Nat) (w : World σ) : World σ :=
  let u32 := u32_bytes u
  let buflen := 32
  let r := test_char L G cd_setup cd_setup_back u u32 4 buflen 0 NULL w
  if r.1.ret ≠ 0 then
    r.2
  else
    let source := r.1.output
    let sourcebytes := r.1.outputbytes
    let r := test_char L G cd cd_back u source sourcebytes buflen 1 cd_setup_back r.2
    if r.1.ret = 0 then printf "OK U+%04x\n" [Arg.uint u] r.2 else r.2

/-- The loop `for (unsigned u = ...; u <= 0x10FFFF; u++) { ... }` from the value `u` of the
loop variable on. -/
def sweep_loop (L : Libc σ) (G : Globals) (cd_setup cd_setup_back cd cd_back : iconv_t)
    (u : Nat) (w : World σ) : World σ :=
  if u ≤ 0x10FFFF then
    sweep_loop L G cd_setup cd_setup_back cd cd_back ((u + 1) % UINT_MOD)
      (sweep_body L G cd_setup cd_setup_back cd cd_back u w)
  else w
termination_by 0x110000 - u
decreasing_by
  have h : (u + 1) % UINT_MOD = u + 1 := Nat.mod_eq_of_lt (by unfold UINT_MOD; omega)
  rw [h]
  omega

/-- The four `iconv_open` calls that start `test_nonrepresentable`, in program order:
the descriptors `cd_setup`, `cd_setup_back`, `cd`, `cd_back` and the state after them. -/
def open_handles (L : Libc σ) (G : Globals) (w : World σ) :
    (iconv_t × iconv_t × iconv_t × iconv_t) × World σ :=
  let r := call_iconv_open L G.SOURCE_ENCODING "UTF-32BE" w
  let cd_setup := r.1
  let r := call_iconv_open L "UTF-32BE" G.SOURCE_ENCODING r.2
  let cd_setup_back := r.1
  let r := call_iconv_open L G.TARGET_ENCODING G.SOURCE_ENCODING r.2
  let cd := r.1
  let r := call_iconv_open L G.SOURCE_ENCODING G.TARGET_ENCODING r.2
  let cd_back := r.1
  ((cd_setup, cd_setup_back, cd, cd_back), r.2)

/-- The function `test_nonrepresentable()`. -/
def test_nonrepresentable (L : Libc σ) (G : Globals) (w : World σ) : Int × World σ :=
  let r := open_handles L G w
  let cd_setup := r.1.1
  let cd_setup_back := r.1.2.1
  let cd := r.1.2.2.1
  let cd_back := r.1.2.2.2
  let w := printf "source encoding: %s\n" [Arg.str G.SOURCE_ENCODING] r.2
  let w := printf "target encoding: %s\n" [Arg.str G.TARGET_ENCODING] w
  let w := if L.USE_ICONVCTL then iconvctl_section L G cd w else w
  if cd_setup = ICONV_T_MINUS_ONE ∨ cd_setup_back = ICONV_T_MINUS_ONE ∨
      cd = ICONV_T_MINUS_ONE ∨ cd_back = ICONV_T_MINUS_ONE then
    (-1, w)
  else
    let w := sweep_loop L G cd_setup cd_setup_back cd cd_back 0 w
    let w := (call_iconv_close L cd w).2
    let w := (call_iconv_close L cd_back w).2
    (0, w)

/-- The first `iconv` call of `test_char`: the forward conversion of the input. -/
def forward_call (L : Libc σ) (cd : iconv_t) (input : List Nat) (inputbytes outbuflen : Nat)
    (w : World σ) : IconvResult × World σ :=
  call_iconv L cd input inputbytes outbuflen w

/-- The second `iconv` call of `test_char`, as made when the forward conversion succeeded
with non-zero output: the backward conversion of what the forward call produced, into
the 32-byte buffer `input_back`. -/
def backward_call (L : Libc σ) (cd cd_back : iconv_t) (input : List Nat)
    (inputbytes outbuflen : Nat) (w : World σ) : IconvResult × World σ :=
  let f := forward_call L cd input inputbytes outbuflen w
  call_iconv L cd_back f.1.outbuf (size_sub outbuflen f.1.outbytesleft) 32 f.2

/-- The format strings of the `printf` calls made for one code point, by `test_char` and
by the body of the sweep loop. -/
def per_code_point_formats : List String :=
  ["EILSEQ U+%04x\n", "ERROR U+%04x\n", "DISCARDED U+%04x\n", "BACK-ERROR U+%04x %s\n",
   "BACK-DISCARDED-ERROR U+%04x\n", "REPLACED U+%04x ->", " U+%04x", ", %s ", "%02x",
   " -> ", "\n", "OK U+%04x\n"]

/-- The state `w2` extends `w1` by setup activity only: the library calls added are not
`iconv` calls and the `printf` calls added use none of the per-code-point formats. -/
def setup_only (w1 w2 : World σ) : Prop :=
  ∃ newcalls newout, w2.calls = w1.calls ++ newcalls ∧ w2.out = w1.out ++ newout ∧
    (∀ c, c ∈ newcalls → ∀ cd inbuf n m, c ≠ Call.iconv cd inbuf n m) ∧
    (∀ p, p ∈ newout → p.fmt ∉ per_code_point_formats)

/-- The state `w2` extends the output of `w1` by `printf` calls that all use one of the
per-code-point formats. -/
def code_point_output (w1 w2 : World σ) : Prop :=
  ∃ newout, w2.out = w1.out ++ newout ∧ ∀ p, p ∈ newout → p.fmt ∈ per_code_point_formats

/-- Globals of a run whose target encoding name `"?"` the concrete library rejects. -/
def badGlobals : Globals := ⟨"A", "?", 0, 0, 0, 0⟩

/-! ## A small concrete library

A library over the engine state `Nat` (the number of `iconv` calls made so far), used to
evaluate the program on concrete inputs.  Its descriptors are `1` (copies its input),
`2` (rejects every input as an illegal sequence), `3` (succeeds and writes nothing),
`4` (fails with an error that is not `EILSEQ`) and `5` (writes the single byte `63`). -/

/-- The `iconv` of the concrete library. -/
def toy_iconv (cd : iconv_t) (inbuf : List Nat) (inbytesleft outbytesleft : Nat) (n : Nat) :
    IconvResult × Nat :=
  let copy : IconvResult :=
    ⟨0, 0, outbytesleft - inbytesleft, inbytesleft, inbuf.take inbytesleft⟩
  let subst : IconvResult := ⟨1, 0, outbytesleft - 1, 1, [63]⟩
  if cd = 1 then (copy, n + 1)
  else if cd = 2 then (⟨SIZE_T_MINUS_ONE, 84, outbytesleft, 0, []⟩, n + 1)
  else if cd = 3 then (⟨0, 0, outbytesleft, 0, []⟩, n + 1)
  else if cd = 5 then (subst, n + 1)
  else (⟨SIZE_T_MINUS_ONE, 7, outbytesleft, 0, []⟩, n + 1)

/-- The `iconv_open` of the concrete library: the encoding name `"?"` is not recognised,
the four pairs over `"A"` and `"B"` map to the descriptors `1`, `1`, `5`, `1`. -/
def toy_iconv_open (tocode fromcode : String) (n : Nat) : iconv_t × Nat :=
  if tocode = "?" ∨ fromcode = "?" then (-1, n)
  else if tocode = "B" then (5, n)
  else (1, n)

/-- The concrete library. -/
def toyLibc : Libc Nat where
  EILSEQ := 84
  strerror := fun e => if e = 84 then "Illegal byte sequence" else "Error"
  iconv_open := toy_iconv_open
  iconv := toy_iconv
  iconv_close := fun _ n => (0, n)
  USE_ICONVCTL := false
  iconvctl := fun _ _ arg n => (⟨0, arg, 0⟩, n)
  ICONV_GET_TRANSLITERATE := 1
  ICONV_SET_TRANSLITERATE := 2
  ICONV_GET_DISCARD_ILSEQ := 3
  ICONV_GET_ILSEQ_INVALID := 128
  ICONV_SET_ILSEQ_INVALID := 129

/-- Globals of a run from encoding `"A"` to encoding `"B"` with no option given. -/
def toyGlobals : Globals := ⟨"A", "B", 0, 0, 0, 0⟩

/-- The state before anything has run. -/
def world0 : World Nat := ⟨0, [], []⟩

/-- Whether a library call is an `iconv` call on the descriptor `h`. -/
def is_conv_with (h : iconv_t) : Call → Bool
  | Call.iconv cd _ _ _ => decide (cd = h)
  | _ => false

/-- The number of `iconv` calls on the descriptor `h` in a call log. -/
def conversions_with (h : iconv_t) (cs : List Call) : Nat :=
  cs.countP (is_conv_with h)

/-- The condition under which `test_char` goes on to the backward conversion: the forward
`iconv` call did not return `(size_t)-1` and `*outputbytes` is not zero. -/
def forward_ok (L : Libc σ) (cd : iconv_t) (input : List Nat) (inputbytes outbuflen : Nat)
    (w : World σ) : Prop :=
  (forward_call L cd input inputbytes outbuflen w).1.res ≠ SIZE_T_MINUS_ONE ∧
  size_sub outbuflen (forward_call L cd input inputbytes outbuflen w).1.outbytesleft ≠ 0

instance (L : Libc σ) (cd : iconv_t) (input : List Nat) (inputbytes outbuflen : Nat)
    (w : World σ) : Decidable (forward_ok L cd input inputbytes outbuflen w) := by
  unfold forward_ok
  exact inferInstance

/-- The five classification outcomes the spec names. -/
inductive Outcome where
  | REPRESENTABLE
  | REJECTED
  | DISCARDED
  | SUBSTITUTED
  | TEST_ERROR
deriving DecidableEq, Repr

/-- The outcome of one run of the classifier as the spec words it (section 4.1), from what
the forward and the backward conversion leave behind: an illegal-sequence report of the
forward conversion is REJECTED and any other forward failure TEST_ERROR; forward success
with zero output bytes is DISCARDED; a backward failure or zero backward output is
TEST_ERROR; then an exact match of length and content is REPRESENTABLE and a mismatch
SUBSTITUTED. -/
def spec_outcome (L : Libc σ) (cd cd_back : iconv_t) (input : List Nat)
    (inputbytes outbuflen : Nat) (w : World σ) : Outcome :=
  let f := (forward_call L cd input inputbytes outbuflen w).1
  let b := (backward_call L cd cd_back input inputbytes outbuflen w).1
  if f.res = SIZE_T_MINUS_ONE then
    if f.errno = L.EILSEQ then Outcome.REJECTED else Outcome.TEST_ERROR
  else if size_sub outbuflen f.outbytesleft = 0 then Outcome.DISCARDED
  else if b.res = SIZE_T_MINUS_ONE then Outcome.TEST_ERROR
  else if size_sub 32 b.outbytesleft = 0 then Outcome.TEST_ERROR
  else if size_sub 32 b.outbytesleft = inputbytes ∧ memcmp input b.outbuf inputbytes = 0 then
    Outcome.REPRESENTABLE
  else Outcome.SUBSTITUTED

/-- The value of the `return` statement of `test_char` for each outcome, as its comments
label them: `0` "representable, ok"; `1` "non-representable, returns EILSEQ" and also
`1` "non-representable, discarded"; `2` "non-representable, transliteration or
substitution"; `-1` "test error". -/
def return_code : Outcome → Int
  | Outcome.REPRESENTABLE => 0
  | Outcome.REJECTED => 1
  | Outcome.DISCARDED => 1
  | Outcome.SUBSTITUTED => 2
  | Outcome.TEST_ERROR => -1

/-- The state `test_nonrepresentable` is in when it reaches the test of the four
descriptors: after the four `iconv_open` calls, the two header lines and, when compiled
with `USE_ICONVCTL`, the `iconvctl` section. -/
def setup_state (L : Libc σ) (G : Globals) (w : World σ) : World σ :=
  let r := open_handles L G w
  let w := printf "source encoding: %s\n" [Arg.str G.SOURCE_ENCODING] r.2
  let w := printf "target encoding: %s\n" [Arg.str G.TARGET_ENCODING] w
  if L.USE_ICONVCTL then iconvctl_section L G r.1.2.2.1 w else w

/-- The `iconv_close` calls of a call log, in order. -/
def close_calls (cs : List Call) : List Call :=
  cs.filter (fun c => match c with
    | Call.iconv_close _ => true
    | _ => false)

/-- The state `w2` extends the call log of `w1` by calls none of which is an `iconv_close`
call. -/
def no_close (w1 w2 : World σ) : Prop :=
  ∃ new, w2.calls = w1.calls ++ new ∧ close_calls new = []

/-- The `iconv_open` of a second concrete library, which hands out four distinct
descriptors: `1` for canonical→source, `6` for source→canonical, `5` for source→target
and `7` for target→source. -/
def toy4_iconv_open (tocode fromcode : String) (n : Nat) : iconv_t × Nat :=
  if tocode = "?" ∨ fromcode = "?" then (-1, n)
  else if fromcode = "UTF-32BE" then (1, n)
  else if tocode = "UTF-32BE" then (6, n)
  else if tocode = "B" then (5, n)
  else (7, n)

/-- The second concrete library: as the first one, with the descriptors `6` and `7` copying
their input as `1` does. -/
def toyLibc4 : Libc Nat :=
  { toyLibc with
    iconv_open := toy4_iconv_open
    iconv := fun cd inbuf n c s => toy_iconv (if cd = 6 ∨ cd = 7 then 1 else cd) inbuf n c s }

/-! ## The text written by `printf`

The C library's `printf` for the conversion specifications this program uses: `%04x` and
`%02x` (an `unsigned` in lower-case hexadecimal, padded with zeros to the width), `%s`
(the characters of the string) and `%d` (an `int` in decimal).  Every other character of
the format is written as it is. -/

/-- The lower-case hexadecimal digit of `d`. -/
def hex_digit (d : Nat) : Char := "0123456789abcdef".toList.getD d '0'

/-- The conversion `%0<width>x` of the value `n`. -/
def fmt_hex (width n : Nat) : List Char :=
  let ds := (Nat.digits 16 n).reverse.map hex_digit
  List.replicate (width - ds.length) '0' ++ ds

/-- The conversion `%d` of the value `i`. -/
def fmt_dec (i : Int) : List Char :=
  (if i < 0 then ['-'] else []) ++
    (if i = 0 then ['0'] else (Nat.digits 10 i.natAbs).reverse.map hex_digit)

/-- The text of a `printf` call with the format characters `fmt` and the arguments `args`. -/
def render_fmt : List Char → List Arg → List Char
  | [], _ => []
  | '%' :: '0' :: '4' :: 'x' :: fmt, Arg.uint n :: args => fmt_hex 4 n ++ render_fmt fmt args
  | '%' :: '0' :: '2' :: 'x' :: fmt, Arg.uint n :: args => fmt_hex 2 n ++ render_fmt fmt args
  | '%' :: 's' :: fmt, Arg.str s :: args => s.toList ++ render_fmt fmt args
  | '%' :: 'd' :: fmt, Arg.int i :: args => fmt_dec i ++ render_fmt fmt args
  | c :: fmt, args => c :: render_fmt fmt args

/-- The text of one `printf` call. -/
def render_printf (p : Printf) : List Char := render_fmt p.fmt.toList p.args

/-- The text of a sequence of `printf` calls. -/
def render : List Printf → List Char
  | [] => []
  | p :: ps => render_printf p ++ render ps

/-- The number of newline characters in a text, that is the number of lines it ends. -/
def newlines (cs : List Char) : Nat := cs.count '\n'

/-- The `printf` calls between the head and the final `"\n"` of a `REPLACED` line: a
substituted code point, the source encoding name, a byte in hexadecimal, the arrow. -/
def inline_printf (G : Globals) (p : Printf) : Prop :=
  (∃ n, p = ⟨" U+%04x", [Arg.uint n]⟩) ∨ p = ⟨", %s ", [Arg.str G.SOURCE_ENCODING]⟩ ∨
  (∃ n, p = ⟨"%02x", [Arg.uint n]⟩) ∨ p = ⟨" -> ", []⟩

/-- The state `w2` extends the output of `w1` by `printf` calls of the inside of a
`REPLACED` line. -/
def inline_output (G : Globals) (w1 w2 : World σ) : Prop :=
  ∃ mid, w2.out = w1.out ++ mid ∧ ∀ p, p ∈ mid → inline_printf G p

/-- The first `test_char` call of the body of the sweep loop (canonical→source). -/
def stage1 (L : Libc σ) (G : Globals) (cd_setup cd_setup_back : iconv_t) (u : Nat)
    (w : World σ) : TestChar × World σ :=
  test_char L G cd_setup cd_setup_back u (u32_bytes u) 4 32 0 NULL w

/-- The second `test_char` call of the body of the sweep loop (source→target), made when
the first one returned `0`, on the buffer and the length the first one handed back. -/
def stage2 (L : Libc σ) (G : Globals) (cd_setup cd_setup_back cd cd_back : iconv_t) (u : Nat)
    (w : World σ) : TestChar × World σ :=
  test_char L G cd cd_back u (stage1 L G cd_setup cd_setup_back u w).1.output
    (stage1 L G cd_setup cd_setup_back u w).1.outputbytes 32 1 cd_setup_back
    (stage1 L G cd_setup cd_setup_back u w).2

/-- The forward `iconv` call of the second stage. -/
def stage2_forward (L : Libc σ) (G : Globals) (cd_setup cd_setup_back cd : iconv_t) (u : Nat)
    (w : World σ) : IconvResult :=
  (forward_call L cd (stage1 L G cd_setup cd_setup_back u w).1.output
    (stage1 L G cd_setup cd_setup_back u w).1.outputbytes 32
    (stage1 L G cd_setup cd_setup_back u w).2).1

/-- The labels of the per-code-point lines. -/
def line_labels : List String :=
  ["OK", "EILSEQ", "DISCARDED", "REPLACED", "ERROR", "BACK-ERROR", "BACK-DISCARDED-ERROR"]

end Iconvtest

/-! ## Basic facts -/

namespace Iconvtest

variable {σ : Type}

theorem size_sub_self (a : Nat) : size_sub a a = 0 := by
  unfold size_sub SIZE_MOD
  have h : a % 2 ^ 64 < 2 ^ 64 := Nat.mod_lt _ (by norm_num)
  have e : a % 2 ^ 64 + (2 ^ 64 - a % 2 ^ 64) = 2 ^ 64 := by omega
  rw [e]
  exact Nat.mod_self _

theorem memcmp_from_eq_zero (a b : List Nat) (n : Nat) :
    ∀ i, memcmp_from a b i n = 0 ↔ ∀ j, j < n → a.getD (i + j) 0 = b.getD (i + j) 0 := by
  induction n with
  | zero => intro i; simp [memcmp_from]
  | succ n ih =>
    intro i
    unfold memcmp_from
    by_cases h : a.getD i 0 = b.getD i 0
    · rw [if_neg (by simpa using h), ih (i + 1)]
      constructor
      · intro H j hj
        cases j with
        | zero => simpa using h
        | succ k =>
          have := H k (by omega)
          rwa [show i + 1 + k = i + (k + 1) by omega] at this
      · intro H j hj
        have := H (j + 1) (by omega)
        rwa [show i + (j + 1) = i + 1 + j by omega] at this
    · rw [if_pos h]
      constructor
      · intro H
        exfalso
        apply h
        have : (a.getD i 0 : Int) = (b.getD i 0 : Int) := by omega
        exact_mod_cast this
      · intro H
        exact absurd (by simpa using H 0 (by omega)) h

theorem memcmp_eq_zero (a b : List Nat) (n : Nat) :
    memcmp a b n = 0 ↔ ∀ i, i < n → a.getD i 0 = b.getD i 0 := by
  unfold memcmp
  rw [memcmp_from_eq_zero]
  simp

/-- The value `test_char` returns, as a function of what the forward call and (when it is
made) the backward call leave behind: the decision tree of the source. -/
theorem test_char_ret (L : Libc σ) (G : Globals) (cd cd_back : iconv_t) (u : Nat)
    (input : List Nat) (inputbytes outbuflen : Nat) (verbose : Int) (cd_setup_back : iconv_t)
    (w : World σ) :
    (test_char L G cd cd_back u input inputbytes outbuflen verbose cd_setup_back w).1.ret =
      if (forward_call L cd input inputbytes outbuflen w).1.res = SIZE_T_MINUS_ONE then
        if (forward_call L cd input inputbytes outbuflen w).1.errno = L.EILSEQ then 1 else -1
      else if size_sub outbuflen (forward_call L cd input inputbytes outbuflen w).1.outbytesleft = 0
        then 1
      else if (backward_call L cd cd_back input inputbytes outbuflen w).1.res = SIZE_T_MINUS_ONE
        then -1
      else if size_sub 32 (backward_call L cd cd_back input inputbytes outbuflen w).1.outbytesleft
          = 0 then -1
      else if size_sub 32 (backward_call L cd cd_back input inputbytes outbuflen w).1.outbytesleft
            ≠ inputbytes ∨
          memcmp input (backward_call L cd cd_back input inputbytes outbuflen w).1.outbuf
            inputbytes ≠ 0 then 2
      else 0 := by
  unfold test_char backward_call forward_call
  simp only []
  split_ifs <;> rfl

/-- The buffer and the length `test_char` hands back are those the forward call left. -/
theorem test_char_output (L : Libc σ) (G : Globals) (cd cd_back : iconv_t) (u : Nat)
    (input : List Nat) (inputbytes outbuflen : Nat) (verbose : Int) (cd_setup_back : iconv_t)
    (w : World σ) :
    (test_char L G cd cd_back u input inputbytes outbuflen verbose cd_setup_back w).1.output
      = (forward_call L cd input inputbytes outbuflen w).1.outbuf ∧
    (test_char L G cd cd_back u input inputbytes outbuflen verbose cd_setup_back w).1.outputbytes
      = size_sub outbuflen (forward_call L cd input inputbytes outbuflen w).1.outbytesleft := by
  unfold test_char forward_call
  simp only []
  split_ifs <;> exact ⟨rfl, rfl⟩

/-! ## The classifier `test_char` -/

/-- C1: when the forward `iconv` call of `test_char` returns `(size_t)-1` with `errno`
equal to `EILSEQ`, `test_char` returns `1` (REJECTED), not `-1` (TEST_ERROR), and the only
library call it makes is the forward one: the backward handle is not used. -/
theorem test_char_forward_eilseq (L : Libc σ) (G : Globals) (cd cd_back : iconv_t) (u : Nat)
    (input : List Nat) (inputbytes outbuflen : Nat) (verbose : Int) (cd_setup_back : iconv_t)
    (w : World σ)
    (hres : (forward_call L cd input inputbytes outbuflen w).1.res = SIZE_T_MINUS_ONE)
    (herrno : (forward_call L cd input inputbytes outbuflen w).1.errno = L.EILSEQ) :
    (test_char L G cd cd_back u input inputbytes outbuflen verbose cd_setup_back w).1.ret = 1 ∧
    (test_char L G cd cd_back u input inputbytes outbuflen verbose cd_setup_back w).1.ret ≠ -1 ∧
    (test_char L G cd cd_back u input inputbytes outbuflen verbose cd_setup_back w).2.calls
      = w.calls ++ [Call.iconv cd input inputbytes outbuflen] ∧
    (test_char L G cd cd_back u input inputbytes outbuflen verbose cd_setup_back w).2.eng
      = (L.iconv cd input inputbytes outbuflen w.eng).2 := by
  unfold forward_call at hres herrno
  unfold test_char
  simp only [hres, herrno, if_true]
  refine ⟨trivial, by decide, ?_, ?_⟩ <;>
    (unfold printf_if printf call_iconv; split_ifs <;> rfl)

/-- Witness of C1: the descriptor `2` of the concrete library rejects the byte `65`. -/
theorem test_char_forward_eilseq_witness :
    (test_char toyLibc toyGlobals 2 1 65 [65] 1 32 1 1 world0).1.ret = 1 ∧
    (test_char toyLibc toyGlobals 2 1 65 [65] 1 32 1 1 world0).1.ret ≠ -1 ∧
    (test_char toyLibc toyGlobals 2 1 65 [65] 1 32 1 1 world0).2.calls
      = world0.calls ++ [Call.iconv 2 [65] 1 32] ∧
    (test_char toyLibc toyGlobals 2 1 65 [65] 1 32 1 1 world0).2.eng
      = (toyLibc.iconv 2 [65] 1 32 world0.eng).2 :=
  test_char_forward_eilseq toyLibc toyGlobals 2 1 65 [65] 1 32 1 1 world0
    (by decide) (by decide)

/-- C2: when the forward `iconv` call of `test_char` succeeds and leaves `outbytesleft`
equal to `outbuflen` (zero output bytes), `test_char` returns `1` (DISCARDED), never `0`
(REPRESENTABLE) nor `2` (SUBSTITUTED); in verbose mode it prints the `DISCARDED` line and
nothing else, otherwise nothing; the backward handle is not used, so what it would do
cannot matter. -/
theorem test_char_forward_discarded (L : Libc σ) (G : Globals) (cd cd_back : iconv_t) (u : Nat)
    (input : List Nat) (inputbytes outbuflen : Nat) (verbose : Int) (cd_setup_back : iconv_t)
    (w : World σ)
    (hres : (forward_call L cd input inputbytes outbuflen w).1.res ≠ SIZE_T_MINUS_ONE)
    (hleft : (forward_call L cd input inputbytes outbuflen w).1.outbytesleft = outbuflen) :
    (test_char L G cd cd_back u input inputbytes outbuflen verbose cd_setup_back w).1.ret = 1 ∧
    (test_char L G cd cd_back u input inputbytes outbuflen verbose cd_setup_back w).1.ret ≠ 0 ∧
    (test_char L G cd cd_back u input inputbytes outbuflen verbose cd_setup_back w).1.ret ≠ 2 ∧
    (test_char L G cd cd_back u input inputbytes outbuflen verbose cd_setup_back w).1.outputbytes
      = 0 ∧
    (test_char L G cd cd_back u input inputbytes outbuflen verbose cd_setup_back w).2.out
      = (if verbose ≠ 0 then w.out ++ [⟨"DISCARDED U+%04x\n", [Arg.uint u]⟩] else w.out) ∧
    (test_char L G cd cd_back u input inputbytes outbuflen verbose cd_setup_back w).2.calls
      = w.calls ++ [Call.iconv cd input inputbytes outbuflen] := by
  unfold forward_call at hres hleft
  unfold test_char
  simp only [hres, hleft, size_sub_self, if_true, if_false]
  refine ⟨trivial, by decide, by decide, trivial, ?_, ?_⟩ <;>
    (unfold printf_if printf call_iconv; split_ifs <;> rfl)

/-- Witness of C2: the descriptor `3` of the concrete library succeeds and writes nothing. -/
theorem test_char_forward_discarded_witness :
    (test_char toyLibc toyGlobals 3 1 65 [65] 1 32 1 1 world0).1.ret = 1 ∧
    (test_char toyLibc toyGlobals 3 1 65 [65] 1 32 1 1 world0).1.ret ≠ 0 ∧
    (test_char toyLibc toyGlobals 3 1 65 [65] 1 32 1 1 world0).1.ret ≠ 2 ∧
    (test_char toyLibc toyGlobals 3 1 65 [65] 1 32 1 1 world0).1.outputbytes = 0 ∧
    (test_char toyLibc toyGlobals 3 1 65 [65] 1 32 1 1 world0).2.out
      = (if (1 : Int) ≠ 0 then world0.out ++ [⟨"DISCARDED U+%04x\n", [Arg.uint 65]⟩]
          else world0.out) ∧
    (test_char toyLibc toyGlobals 3 1 65 [65] 1 32 1 1 world0).2.calls
      = world0.calls ++ [Call.iconv 3 [65] 1 32] :=
  test_char_forward_discarded toyLibc toyGlobals 3 1 65 [65] 1 32 1 1 world0
    (by decide) (by decide)

/-- C3: round-trip law.  `test_char` returns `0` (REPRESENTABLE) if and only if the forward
conversion succeeded with non-zero output, the backward conversion succeeded with
non-zero output, the round-tripped length `blen` equals `inputbytes` and each of the
first `inputbytes` round-tripped bytes equals the input byte at the same index. -/
theorem test_char_representable_iff (L : Libc σ) (G : Globals) (cd cd_back : iconv_t) (u : Nat)
    (input : List Nat) (inputbytes outbuflen : Nat) (verbose : Int) (cd_setup_back : iconv_t)
    (w : World σ) :
    (test_char L G cd cd_back u input inputbytes outbuflen verbose cd_setup_back w).1.ret = 0 ↔
      ((forward_call L cd input inputbytes outbuflen w).1.res ≠ SIZE_T_MINUS_ONE ∧
       size_sub outbuflen (forward_call L cd input inputbytes outbuflen w).1.outbytesleft ≠ 0) ∧
      ((backward_call L cd cd_back input inputbytes outbuflen w).1.res ≠ SIZE_T_MINUS_ONE ∧
       size_sub 32 (backward_call L cd cd_back input inputbytes outbuflen w).1.outbytesleft ≠ 0) ∧
      size_sub 32 (backward_call L cd cd_back input inputbytes outbuflen w).1.outbytesleft
        = inputbytes ∧
      ∀ i, i < inputbytes →
        (backward_call L cd cd_back input inputbytes outbuflen w).1.outbuf.getD i 0
          = input.getD i 0 := by
  rw [test_char_ret]
  have hm := memcmp_eq_zero input
    (backward_call L cd cd_back input inputbytes outbuflen w).1.outbuf inputbytes
  split_ifs with h1 h2 h3 h4 h5 h6
  · simp [h1]
  · simp [h1]
  · simp [h3]
  · simp [h4]
  · simp [h5]
  · constructor
    · intro H; exact absurd H (by decide)
    · intro H
      exfalso
      rcases h6 with h6 | h6
      · exact h6 H.2.2.1
      · exact h6 (hm.2 (fun i hi => (H.2.2.2 i hi).symm))
  · push_neg at h6
    exact ⟨fun _ => ⟨⟨h1, h3⟩, ⟨h4, h5⟩, h6.1, fun i hi => (hm.1 h6.2 i hi).symm⟩, fun _ => rfl⟩

/-- C4: substitution law.  `test_char` returns `2` (SUBSTITUTED) if and only if neither the
forward nor the backward conversion reported an error, both produced non-zero output, and
the round-tripped bytes differ from the input in length (`blen ≠ inputbytes`) or in at
least one of the first `inputbytes` bytes. -/
theorem test_char_substituted_iff (L : Libc σ) (G : Globals) (cd cd_back : iconv_t) (u : Nat)
    (input : List Nat) (inputbytes outbuflen : Nat) (verbose : Int) (cd_setup_back : iconv_t)
    (w : World σ) :
    (test_char L G cd cd_back u input inputbytes outbuflen verbose cd_setup_back w).1.ret = 2 ↔
      ((forward_call L cd input inputbytes outbuflen w).1.res ≠ SIZE_T_MINUS_ONE ∧
       (backward_call L cd cd_back input inputbytes outbuflen w).1.res ≠ SIZE_T_MINUS_ONE) ∧
      (size_sub outbuflen (forward_call L cd input inputbytes outbuflen w).1.outbytesleft ≠ 0 ∧
       size_sub 32 (backward_call L cd cd_back input inputbytes outbuflen w).1.outbytesleft ≠ 0) ∧
      (size_sub 32 (backward_call L cd cd_back input inputbytes outbuflen w).1.outbytesleft
          ≠ inputbytes ∨
       ∃ i, i < inputbytes ∧
        (backward_call L cd cd_back input inputbytes outbuflen w).1.outbuf.getD i 0
          ≠ input.getD i 0) := by
  rw [test_char_ret]
  have hm := memcmp_eq_zero input
    (backward_call L cd cd_back input inputbytes outbuflen w).1.outbuf inputbytes
  split_ifs with h1 h2 h3 h4 h5 h6
  · simp [h1]
  · simp [h1]
  · simp [h3]
  · simp [h4]
  · simp [h5]
  · refine ⟨fun _ => ?_, fun _ => rfl⟩
    refine ⟨⟨h1, h4⟩, ⟨h3, h5⟩, ?_⟩
    rcases h6 with h6 | h6
    · exact Or.inl h6
    · right
      by_contra hne
      push_neg at hne
      exact h6 (hm.2 (fun i hi => (hne i hi).symm))
  · push_neg at h6
    have hall := hm.1 h6.2
    constructor
    · intro H; exact absurd H (by decide)
    · rintro ⟨_, _, H | ⟨i, hi, H⟩⟩
      · exact absurd h6.1 H
      · exact absurd (hall i hi).symm H

/-- C5: when the forward `iconv` call of `test_char` returns `(size_t)-1` with `errno`
different from `EILSEQ`, `test_char` returns `-1` (TEST_ERROR) whatever `verbose` is, and
so none of the representability codes `0`, `1`, `2`. -/
theorem test_char_forward_other_error (L : Libc σ) (G : Globals) (cd cd_back : iconv_t)
    (u : Nat) (input : List Nat) (inputbytes outbuflen : Nat) (verbose : Int)
    (cd_setup_back : iconv_t) (w : World σ)
    (hres : (forward_call L cd input inputbytes outbuflen w).1.res = SIZE_T_MINUS_ONE)
    (herrno : (forward_call L cd input inputbytes outbuflen w).1.errno ≠ L.EILSEQ) :
    (test_char L G cd cd_back u input inputbytes outbuflen verbose cd_setup_back w).1.ret = -1 ∧
    (test_char L G cd cd_back u input inputbytes outbuflen verbose cd_setup_back w).1.ret ≠ 0 ∧
    (test_char L G cd cd_back u input inputbytes outbuflen verbose cd_setup_back w).1.ret ≠ 1 ∧
    (test_char L G cd cd_back u input inputbytes outbuflen verbose cd_setup_back w).1.ret ≠ 2 := by
  rw [test_char_ret, if_pos hres, if_neg herrno]
  decide

/-- Witness of C5: the descriptor `4` of the concrete library fails with `errno = 7`, in
non-verbose mode. -/
theorem test_char_forward_other_error_witness :
    (test_char toyLibc toyGlobals 4 1 65 [65] 1 32 0 1 world0).1.ret = -1 ∧
    (test_char toyLibc toyGlobals 4 1 65 [65] 1 32 0 1 world0).1.ret ≠ 0 ∧
    (test_char toyLibc toyGlobals 4 1 65 [65] 1 32 0 1 world0).1.ret ≠ 1 ∧
    (test_char toyLibc toyGlobals 4 1 65 [65] 1 32 0 1 world0).1.ret ≠ 2 :=
  test_char_forward_other_error toyLibc toyGlobals 4 1 65 [65] 1 32 0 1 world0
    (by decide) (by decide)

/-- C6: when the forward conversion of `test_char` succeeded with non-zero output and the
backward `iconv` call returns `(size_t)-1` (whatever `errno` is, `EILSEQ` included) or
succeeds with zero output bytes, `test_char` returns `-1` (TEST_ERROR) and so none of
`0`, `1`, `2`. -/
theorem test_char_backward_failure (L : Libc σ) (G : Globals) (cd cd_back : iconv_t)
    (u : Nat) (input : List Nat) (inputbytes outbuflen : Nat) (verbose : Int)
    (cd_setup_back : iconv_t) (w : World σ)
    (hres : (forward_call L cd input inputbytes outbuflen w).1.res ≠ SIZE_T_MINUS_ONE)
    (hout : size_sub outbuflen (forward_call L cd input inputbytes outbuflen w).1.outbytesleft
      ≠ 0)
    (hback : (backward_call L cd cd_back input inputbytes outbuflen w).1.res = SIZE_T_MINUS_ONE ∨
      size_sub 32 (backward_call L cd cd_back input inputbytes outbuflen w).1.outbytesleft = 0) :
    (test_char L G cd cd_back u input inputbytes outbuflen verbose cd_setup_back w).1.ret = -1 ∧
    (test_char L G cd cd_back u input inputbytes outbuflen verbose cd_setup_back w).1.ret ≠ 0 ∧
    (test_char L G cd cd_back u input inputbytes outbuflen verbose cd_setup_back w).1.ret ≠ 1 ∧
    (test_char L G cd cd_back u input inputbytes outbuflen verbose cd_setup_back w).1.ret ≠ 2 := by
  rw [test_char_ret, if_neg hres, if_neg hout]
  rcases hback with hb | hb
  · rw [if_pos hb]; decide
  · by_cases hb1 : (backward_call L cd cd_back input inputbytes outbuflen w).1.res
        = SIZE_T_MINUS_ONE
    · rw [if_pos hb1]; decide
    · rw [if_neg hb1, if_pos hb]; decide

/-- Witness of C6: forward through the copying descriptor `1`, backward through the
descriptor `2`, which fails with `EILSEQ`. -/
theorem test_char_backward_failure_witness :
    (test_char toyLibc toyGlobals 1 2 65 [65] 1 32 1 1 world0).1.ret = -1 ∧
    (test_char toyLibc toyGlobals 1 2 65 [65] 1 32 1 1 world0).1.ret ≠ 0 ∧
    (test_char toyLibc toyGlobals 1 2 65 [65] 1 32 1 1 world0).1.ret ≠ 1 ∧
    (test_char toyLibc toyGlobals 1 2 65 [65] 1 32 1 1 world0).1.ret ≠ 2 :=
  test_char_backward_failure toyLibc toyGlobals 1 2 65 [65] 1 32 1 1 world0
    (by decide) (by decide) (Or.inl (by decide))

/-! ## The sweep -/

/-- With `verbose = 0`, `test_char` prints nothing and its library calls are the forward
`iconv` call, followed or not by the backward one; `cd_setup_back` is not used. -/
theorem test_char_quiet (L : Libc σ) (G : Globals) (cd cd_back : iconv_t) (u : Nat)
    (input : List Nat) (inputbytes outbuflen : Nat) (cd_setup_back : iconv_t) (w : World σ) :
    (test_char L G cd cd_back u input inputbytes outbuflen 0 cd_setup_back w).2.out = w.out ∧
    ((test_char L G cd cd_back u input inputbytes outbuflen 0 cd_setup_back w).2.calls
        = w.calls ++ [Call.iconv cd input inputbytes outbuflen] ∨
     (test_char L G cd cd_back u input inputbytes outbuflen 0 cd_setup_back w).2.calls
        = w.calls ++ [Call.iconv cd input inputbytes outbuflen,
            Call.iconv cd_back (forward_call L cd input inputbytes outbuflen w).1.outbuf
              (size_sub outbuflen (forward_call L cd input inputbytes outbuflen w).1.outbytesleft)
              32]) := by
  unfold test_char forward_call
  simp only [printf_if, ne_eq, not_true_eq_false, if_false]
  split_ifs <;> simp [call_iconv]

/-- C7: in the body of the sweep loop, when the first-stage `test_char` call
(canonical→source, non-verbose) returns anything but `0`, the iteration is that call and
nothing more: nothing is printed, and every library call of the iteration is an `iconv`
call on `cd_setup` or `cd_setup_back`; so no conversion is made with `cd` or `cd_back`
(as descriptors distinct from those two). -/
theorem sweep_body_skips_unrepresentable (L : Libc σ) (G : Globals)
    (cd_setup cd_setup_back cd cd_back : iconv_t) (u : Nat) (w : World σ)
    (h : (test_char L G cd_setup cd_setup_back u (u32_bytes u) 4 32 0 NULL w).1.ret ≠ 0) :
    (sweep_body L G cd_setup cd_setup_back cd cd_back u w).out = w.out ∧
    sweep_body L G cd_setup cd_setup_back cd cd_back u w
      = (test_char L G cd_setup cd_setup_back u (u32_bytes u) 4 32 0 NULL w).2 ∧
    ∃ new, (sweep_body L G cd_setup cd_setup_back cd cd_back u w).calls = w.calls ++ new ∧
      (∀ c, c ∈ new → ∃ inbuf n m,
        c = Call.iconv cd_setup inbuf n m ∨ c = Call.iconv cd_setup_back inbuf n m) ∧
      (cd ≠ cd_setup → cd ≠ cd_setup_back → ∀ inbuf n m, Call.iconv cd inbuf n m ∉ new) ∧
      (cd_back ≠ cd_setup → cd_back ≠ cd_setup_back →
        ∀ inbuf n m, Call.iconv cd_back inbuf n m ∉ new) := by
  have hbody : sweep_body L G cd_setup cd_setup_back cd cd_back u w
      = (test_char L G cd_setup cd_setup_back u (u32_bytes u) 4 32 0 NULL w).2 := by
    unfold sweep_body
    simp only [if_pos h]
  have hq := test_char_quiet L G cd_setup cd_setup_back u (u32_bytes u) 4 32 NULL w
  have key : ∃ new, (test_char L G cd_setup cd_setup_back u (u32_bytes u) 4 32 0 NULL w).2.calls
      = w.calls ++ new ∧
      ∀ c, c ∈ new → ∃ inbuf n m,
        c = Call.iconv cd_setup inbuf n m ∨ c = Call.iconv cd_setup_back inbuf n m := by
    rcases hq.2 with hc | hc
    · refine ⟨_, hc, ?_⟩
      intro c hc'
      simp only [List.mem_singleton] at hc'
      exact ⟨_, _, _, Or.inl hc'⟩
    · refine ⟨_, hc, ?_⟩
      intro c hc'
      simp only [List.mem_cons, List.mem_singleton, List.not_mem_nil, or_false] at hc'
      rcases hc' with hc' | hc'
      · exact ⟨_, _, _, Or.inl hc'⟩
      · exact ⟨_, _, _, Or.inr hc'⟩
  rw [hbody]
  refine ⟨hq.1, rfl, ?_⟩
  obtain ⟨new, hnew, hall⟩ := key
  refine ⟨new, hnew, hall, ?_, ?_⟩
  · intro h1 h2 inbuf n m hmem
    obtain ⟨i, a, b, hc | hc⟩ := hall _ hmem
    · injection hc with e; exact h1 e
    · injection hc with e; exact h2 e
  · intro h1 h2 inbuf n m hmem
    obtain ⟨i, a, b, hc | hc⟩ := hall _ hmem
    · injection hc with e; exact h1 e
    · injection hc with e; exact h2 e

/-- Witness of C7: with the rejecting descriptor `2` as `cd_setup`, the code point `65` is
not representable in the source encoding. -/
theorem sweep_body_skips_unrepresentable_witness :
    (sweep_body toyLibc toyGlobals 2 1 5 3 65 world0).out = world0.out ∧
    sweep_body toyLibc toyGlobals 2 1 5 3 65 world0
      = (test_char toyLibc toyGlobals 2 1 65 (u32_bytes 65) 4 32 0 NULL world0).2 ∧
    ∃ new, (sweep_body toyLibc toyGlobals 2 1 5 3 65 world0).calls = world0.calls ++ new ∧
      (∀ c, c ∈ new → ∃ inbuf n m,
        c = Call.iconv 2 inbuf n m ∨ c = Call.iconv 1 inbuf n m) ∧
      ((5 : iconv_t) ≠ 2 → (5 : iconv_t) ≠ 1 → ∀ inbuf n m, Call.iconv 5 inbuf n m ∉ new) ∧
      ((3 : iconv_t) ≠ 2 → (3 : iconv_t) ≠ 1 → ∀ inbuf n m, Call.iconv 3 inbuf n m ∉ new) :=
  sweep_body_skips_unrepresentable toyLibc toyGlobals 2 1 5 3 65 world0 (by decide)

/-! ## Setup of `test_nonrepresentable` -/

theorem setup_only_refl (w : World σ) : setup_only w w :=
  ⟨[], [], by simp, by simp, by simp, by simp⟩

theorem setup_only_trans {w1 w2 w3 : World σ} (h12 : setup_only w1 w2) (h23 : setup_only w2 w3) :
    setup_only w1 w3 := by
  obtain ⟨c1, o1, hc1, ho1, hC1, hO1⟩ := h12
  obtain ⟨c2, o2, hc2, ho2, hC2, hO2⟩ := h23
  refine ⟨c1 ++ c2, o1 ++ o2, ?_, ?_, ?_, ?_⟩
  · rw [hc2, hc1, List.append_assoc]
  · rw [ho2, ho1, List.append_assoc]
  · intro c hc
    rcases List.mem_append.1 hc with h | h
    · exact hC1 c h
    · exact hC2 c h
  · intro p hp
    rcases List.mem_append.1 hp with h | h
    · exact hO1 p h
    · exact hO2 p h

theorem setup_only_printf (fmt : String) (args : List Arg) (w : World σ)
    (h : fmt ∉ per_code_point_formats) : setup_only w (printf fmt args w) := by
  refine ⟨[], [⟨fmt, args⟩], by simp [printf], rfl, by simp, ?_⟩
  intro p hp
  simp only [List.mem_singleton] at hp
  rw [hp]
  exact h

theorem setup_only_iconvctl (L : Libc σ) (cd : iconv_t) (request arg : Int) (w : World σ) :
    setup_only w (call_iconvctl L cd request arg w).2 := by
  refine ⟨[Call.iconvctl cd request arg], [], rfl, by simp [call_iconvctl], ?_, by simp⟩
  intro c hc
  simp only [List.mem_singleton] at hc
  rw [hc]
  intro _ _ _ _ h
  cases h

theorem setup_only_iconv_open (L : Libc σ) (tocode fromcode : String) (w : World σ) :
    setup_only w (call_iconv_open L tocode fromcode w).2 := by
  refine ⟨[Call.iconv_open tocode fromcode], [], rfl, by simp [call_iconv_open], ?_, by simp⟩
  intro c hc
  simp only [List.mem_singleton] at hc
  rw [hc]
  intro _ _ _ _ h
  cases h

theorem setup_only_open_handles (L : Libc σ) (G : Globals) (w : World σ) :
    setup_only w (open_handles L G w).2 := by
  unfold open_handles
  simp only []
  exact setup_only_trans (setup_only_trans (setup_only_trans
    (setup_only_iconv_open L _ _ _) (setup_only_iconv_open L _ _ _))
    (setup_only_iconv_open L _ _ _)) (setup_only_iconv_open L _ _ _)

theorem setup_only_report_iconvctl (L : Libc σ) (cd : iconv_t) (code : Int) (msg : String)
    (w : World σ) : setup_only w (report_iconvctl L cd code msg w) := by
  unfold report_iconvctl
  simp only []
  split_ifs
  · exact setup_only_trans (setup_only_iconvctl L _ _ _ _) (setup_only_printf _ _ _ (by decide))
  · exact setup_only_trans (setup_only_iconvctl L _ _ _ _) (setup_only_printf _ _ _ (by decide))

theorem setup_only_set_transliterate (L : Libc σ) (G : Globals) (cd : iconv_t) (w : World σ) :
    setup_only w (set_transliterate L G cd w) := by
  unfold set_transliterate
  simp only []
  split_ifs
  all_goals first
    | exact setup_only_refl w
    | exact setup_only_trans (setup_only_trans (setup_only_trans
        (setup_only_printf _ _ _ (by decide)) (setup_only_report_iconvctl L _ _ _ _))
        (setup_only_iconvctl L _ _ _ _)) (setup_only_printf _ _ _ (by decide))

theorem setup_only_set_ilseq_invalid (L : Libc σ) (G : Globals) (cd : iconv_t) (w : World σ) :
    setup_only w (set_ilseq_invalid L G cd w) := by
  unfold set_ilseq_invalid
  simp only []
  split_ifs
  all_goals first
    | exact setup_only_refl w
    | exact setup_only_trans (setup_only_trans (setup_only_trans
        (setup_only_printf _ _ _ (by decide)) (setup_only_report_iconvctl L _ _ _ _))
        (setup_only_iconvctl L _ _ _ _)) (setup_only_printf _ _ _ (by decide))

theorem setup_only_iconvctl_section (L : Libc σ) (G : Globals) (cd : iconv_t) (w : World σ) :
    setup_only w (iconvctl_section L G cd w) := by
  unfold iconvctl_section
  simp only []
  exact setup_only_trans (setup_only_trans (setup_only_trans (setup_only_trans
    (setup_only_set_transliterate L G cd w) (setup_only_set_ilseq_invalid L G cd _))
    (setup_only_report_iconvctl L _ _ _ _)) (setup_only_report_iconvctl L _ _ _ _))
    (setup_only_report_iconvctl L _ _ _ _)

/-- C8: when any of the four `iconv_open` calls of `test_nonrepresentable` returns
`(iconv_t)-1`, the function returns `-1` and the sweep is not entered: no `iconv` call is
made (so no `test_char` call, which starts with one) and no `printf` with a
per-code-point format is made.  When compiled without `USE_ICONVCTL`, what is printed is
exactly the two header lines and the library calls are exactly the four `iconv_open`
calls. -/
theorem test_nonrepresentable_open_failure (L : Libc σ) (G : Globals) (w : World σ)
    (h : (open_handles L G w).1.1 = ICONV_T_MINUS_ONE ∨
      (open_handles L G w).1.2.1 = ICONV_T_MINUS_ONE ∨
      (open_handles L G w).1.2.2.1 = ICONV_T_MINUS_ONE ∨
      (open_handles L G w).1.2.2.2 = ICONV_T_MINUS_ONE) :
    (test_nonrepresentable L G w).1 = -1 ∧
    (∃ newcalls newout,
      (test_nonrepresentable L G w).2.calls = w.calls ++ newcalls ∧
      (test_nonrepresentable L G w).2.out = w.out ++ newout ∧
      (∀ c, c ∈ newcalls → ∀ cd inbuf n m, c ≠ Call.iconv cd inbuf n m) ∧
      (∀ p, p ∈ newout → p.fmt ∉ per_code_point_formats)) ∧
    (L.USE_ICONVCTL = false →
      (test_nonrepresentable L G w).2.calls = w.calls ++
        [Call.iconv_open G.SOURCE_ENCODING "UTF-32BE",
         Call.iconv_open "UTF-32BE" G.SOURCE_ENCODING,
         Call.iconv_open G.TARGET_ENCODING G.SOURCE_ENCODING,
         Call.iconv_open G.SOURCE_ENCODING G.TARGET_ENCODING] ∧
      (test_nonrepresentable L G w).2.out = w.out ++
        [⟨"source encoding: %s\n", [Arg.str G.SOURCE_ENCODING]⟩,
         ⟨"target encoding: %s\n", [Arg.str G.TARGET_ENCODING]⟩]) := by
  have hs : setup_only w (test_nonrepresentable L G w).2 := by
    unfold test_nonrepresentable
    simp only [if_pos h]
    have h123 := setup_only_trans (setup_only_trans (setup_only_open_handles L G w)
      (setup_only_printf "source encoding: %s\n" [Arg.str G.SOURCE_ENCODING]
        (open_handles L G w).2 (by decide)))
      (setup_only_printf "target encoding: %s\n" [Arg.str G.TARGET_ENCODING]
        (printf "source encoding: %s\n" [Arg.str G.SOURCE_ENCODING] (open_handles L G w).2)
        (by decide))
    split_ifs
    · exact setup_only_trans h123 (setup_only_iconvctl_section L G _ _)
    · exact h123
  refine ⟨?_, hs, ?_⟩
  · unfold test_nonrepresentable
    simp only [if_pos h]
  · intro hctl
    unfold test_nonrepresentable
    simp only [if_pos h, hctl]
    simp [open_handles, call_iconv_open, printf]

/-- Witness of C8: the concrete library does not recognise the target encoding `"?"`. -/
theorem test_nonrepresentable_open_failure_witness :
    (test_nonrepresentable toyLibc badGlobals world0).1 = -1 ∧
    (∃ newcalls newout,
      (test_nonrepresentable toyLibc badGlobals world0).2.calls = world0.calls ++ newcalls ∧
      (test_nonrepresentable toyLibc badGlobals world0).2.out = world0.out ++ newout ∧
      (∀ c, c ∈ newcalls → ∀ cd inbuf n m, c ≠ Call.iconv cd inbuf n m) ∧
      (∀ p, p ∈ newout → p.fmt ∉ per_code_point_formats)) ∧
    (toyLibc.USE_ICONVCTL = false →
      (test_nonrepresentable toyLibc badGlobals world0).2.calls = world0.calls ++
        [Call.iconv_open badGlobals.SOURCE_ENCODING "UTF-32BE",
         Call.iconv_open "UTF-32BE" badGlobals.SOURCE_ENCODING,
         Call.iconv_open badGlobals.TARGET_ENCODING badGlobals.SOURCE_ENCODING,
         Call.iconv_open badGlobals.SOURCE_ENCODING badGlobals.TARGET_ENCODING] ∧
      (test_nonrepresentable toyLibc badGlobals world0).2.out = world0.out ++
        [⟨"source encoding: %s\n", [Arg.str badGlobals.SOURCE_ENCODING]⟩,
         ⟨"target encoding: %s\n", [Arg.str badGlobals.TARGET_ENCODING]⟩]) :=
  test_nonrepresentable_open_failure toyLibc badGlobals world0
    (Or.inr (Or.inr (Or.inl (by decide))))

/-! ## Determinism and the diagnostic path -/

theorem TestChar.eq_of_fields (t1 t2 : TestChar) (hret : t1.ret = t2.ret)
    (hout : t1.output = t2.output) (hlen : t1.outputbytes = t2.outputbytes) : t1 = t2 := by
  cases t1
  cases t2
  simp only [TestChar.mk.injEq]
  exact ⟨hret, hout, hlen⟩

/-- What `test_char` hands back is determined by what the forward and the backward call
leave behind. -/
theorem test_char_result_congr (L : Libc σ) (G : Globals) (cd cd_back : iconv_t) (u : Nat)
    (input : List Nat) (inputbytes outbuflen : Nat) (v1 v2 : Int) (c1 c2 : iconv_t)
    (w1 w2 : World σ)
    (hf : (forward_call L cd input inputbytes outbuflen w1).1
      = (forward_call L cd input inputbytes outbuflen w2).1)
    (hb : (backward_call L cd cd_back input inputbytes outbuflen w1).1
      = (backward_call L cd cd_back input inputbytes outbuflen w2).1) :
    (test_char L G cd cd_back u input inputbytes outbuflen v1 c1 w1).1
      = (test_char L G cd cd_back u input inputbytes outbuflen v2 c2 w2).1 := by
  apply TestChar.eq_of_fields
  · rw [test_char_ret, test_char_ret, hf, hb]
  · rw [(test_char_output L G cd cd_back u input inputbytes outbuflen v1 c1 w1).1,
      (test_char_output L G cd cd_back u input inputbytes outbuflen v2 c2 w2).1, hf]
  · rw [(test_char_output L G cd cd_back u input inputbytes outbuflen v1 c1 w1).2,
      (test_char_output L G cd cd_back u input inputbytes outbuflen v2 c2 w2).2, hf]

/-- The results of the `iconv` of the concrete library do not depend on the engine state. -/
theorem toy_iconv_stateless (h : iconv_t) (inbuf : List Nat) (n c : Nat) (s1 s2 : Nat) :
    (toyLibc.iconv h inbuf n c s1).1 = (toyLibc.iconv h inbuf n c s2).1 := by
  show (toy_iconv h inbuf n c s1).1 = (toy_iconv h inbuf n c s2).1
  unfold toy_iconv
  simp only []
  split_ifs <;> rfl

/-- C9: determinism.  Under a library whose `iconv` result depends only on the descriptor,
the input bytes and the buffer capacity given (not on the engine state), calling
`test_char` a second time with the same arguments, in the state the first call left,
yields the same return value, the same output buffer and the same `*outputbytes`. -/
theorem test_char_deterministic (L : Libc σ) (G : Globals) (cd cd_back : iconv_t) (u : Nat)
    (input : List Nat) (inputbytes outbuflen : Nat) (verbose : Int) (cd_setup_back : iconv_t)
    (w : World σ)
    (hpure : ∀ (h : iconv_t) (inbuf : List Nat) (n c : Nat) (s1 s2 : σ),
      (L.iconv h inbuf n c s1).1 = (L.iconv h inbuf n c s2).1) :
    (test_char L G cd cd_back u input inputbytes outbuflen verbose cd_setup_back
        (test_char L G cd cd_back u input inputbytes outbuflen verbose cd_setup_back w).2).1.ret
      = (test_char L G cd cd_back u input inputbytes outbuflen verbose cd_setup_back w).1.ret ∧
    (test_char L G cd cd_back u input inputbytes outbuflen verbose cd_setup_back
        (test_char L G cd cd_back u input inputbytes outbuflen verbose cd_setup_back w).2).1.output
      = (test_char L G cd cd_back u input inputbytes outbuflen verbose cd_setup_back w).1.output ∧
    (test_char L G cd cd_back u input inputbytes outbuflen verbose cd_setup_back
        (test_char L G cd cd_back u input inputbytes outbuflen verbose cd_setup_back
          w).2).1.outputbytes
      = (test_char L G cd cd_back u input inputbytes outbuflen verbose cd_setup_back
          w).1.outputbytes := by
  have hf : ∀ w1 w2 : World σ, (forward_call L cd input inputbytes outbuflen w1).1
      = (forward_call L cd input inputbytes outbuflen w2).1 := by
    intro w1 w2
    unfold forward_call call_iconv
    exact hpure _ _ _ _ _ _
  have hb : ∀ w1 w2 : World σ, (backward_call L cd cd_back input inputbytes outbuflen w1).1
      = (backward_call L cd cd_back input inputbytes outbuflen w2).1 := by
    intro w1 w2
    unfold backward_call
    simp only []
    rw [hf w1 w2]
    unfold call_iconv
    exact hpure _ _ _ _ _ _
  have e := test_char_result_congr L G cd cd_back u input inputbytes outbuflen verbose verbose
    cd_setup_back cd_setup_back
    (test_char L G cd cd_back u input inputbytes outbuflen verbose cd_setup_back w).2 w
    (hf _ _) (hb _ _)
  rw [e]
  exact ⟨rfl, rfl, rfl⟩

/-- Witness of C9: the concrete library is stateless in its results; the substituting
descriptor `5` forward, the copying descriptor `1` backward, verbose. -/
theorem test_char_deterministic_witness :
    (test_char toyLibc toyGlobals 5 1 65 [65] 1 32 1 1
        (test_char toyLibc toyGlobals 5 1 65 [65] 1 32 1 1 world0).2).1.ret
      = (test_char toyLibc toyGlobals 5 1 65 [65] 1 32 1 1 world0).1.ret ∧
    (test_char toyLibc toyGlobals 5 1 65 [65] 1 32 1 1
        (test_char toyLibc toyGlobals 5 1 65 [65] 1 32 1 1 world0).2).1.output
      = (test_char toyLibc toyGlobals 5 1 65 [65] 1 32 1 1 world0).1.output ∧
    (test_char toyLibc toyGlobals 5 1 65 [65] 1 32 1 1
        (test_char toyLibc toyGlobals 5 1 65 [65] 1 32 1 1 world0).2).1.outputbytes
      = (test_char toyLibc toyGlobals 5 1 65 [65] 1 32 1 1 world0).1.outputbytes :=
  test_char_deterministic toyLibc toyGlobals 5 1 65 [65] 1 32 1 1 world0 toy_iconv_stateless

/-- C10: the verbose path does not alter the classification.  For every library (so
whatever the diagnostic `iconv` call on `cd_setup_back` returns or writes), from the same
state, `test_char` returns the same value and hands back the same output buffer and the
same `*outputbytes` with `verbose = 0` as with any other `verbose`, and whatever
`cd_setup_back` is. -/
theorem test_char_verbose_irrelevant (L : Libc σ) (G : Globals) (cd cd_back : iconv_t)
    (u : Nat) (input : List Nat) (inputbytes outbuflen : Nat) (verbose : Int)
    (cd_setup_back cd_setup_back0 : iconv_t) (w : World σ) :
    (test_char L G cd cd_back u input inputbytes outbuflen verbose cd_setup_back w).1.ret
      = (test_char L G cd cd_back u input inputbytes outbuflen 0 cd_setup_back0 w).1.ret ∧
    (test_char L G cd cd_back u input inputbytes outbuflen verbose cd_setup_back w).1.output
      = (test_char L G cd cd_back u input inputbytes outbuflen 0 cd_setup_back0 w).1.output ∧
    (test_char L G cd cd_back u input inputbytes outbuflen verbose cd_setup_back w).1.outputbytes
      = (test_char L G cd cd_back u input inputbytes outbuflen 0 cd_setup_back0 w).1.outputbytes
    := by
  have e := test_char_result_congr L G cd cd_back u input inputbytes outbuflen verbose 0
    cd_setup_back cd_setup_back0 w w rfl rfl
  rw [e]
  exact ⟨rfl, rfl, rfl⟩

/-! ## The formats of the per-code-point output -/

theorem code_point_output_refl (w : World σ) : code_point_output w w :=
  ⟨[], by simp, by simp⟩

theorem code_point_output_of_out_eq {w1 w2 : World σ} (h : w2.out = w1.out) :
    code_point_output w1 w2 :=
  ⟨[], by simp [h], by simp⟩

theorem code_point_output_trans {w1 w2 w3 : World σ} (h12 : code_point_output w1 w2)
    (h23 : code_point_output w2 w3) : code_point_output w1 w3 := by
  obtain ⟨o1, ho1, hO1⟩ := h12
  obtain ⟨o2, ho2, hO2⟩ := h23
  refine ⟨o1 ++ o2, by rw [ho2, ho1, List.append_assoc], ?_⟩
  intro p hp
  rcases List.mem_append.1 hp with h | h
  · exact hO1 p h
  · exact hO2 p h

theorem code_point_output_printf (fmt : String) (args : List Arg) (w : World σ)
    (h : fmt ∈ per_code_point_formats) : code_point_output w (printf fmt args w) := by
  refine ⟨[⟨fmt, args⟩], rfl, ?_⟩
  intro p hp
  simp only [List.mem_singleton] at hp
  rw [hp]
  exact h

theorem code_point_output_printf_if (verbose : Int) (fmt : String) (args : List Arg)
    (w : World σ) (h : fmt ∈ per_code_point_formats) :
    code_point_output w (printf_if verbose fmt args w) := by
  unfold printf_if
  split_ifs
  · exact code_point_output_printf fmt args w h
  · exact code_point_output_refl w

theorem code_point_output_call_iconv (L : Libc σ) (cd : iconv_t) (inbuf : List Nat)
    (n m : Nat) (w : World σ) : code_point_output w (call_iconv L cd inbuf n m w).2 :=
  code_point_output_of_out_eq rfl

theorem code_point_output_print_groups (buf32 : List Nat) (outadv : Nat) :
    ∀ (k s : Nat) (w : World σ), outadv - s = k →
      code_point_output w (print_groups buf32 outadv s w) := by
  intro k
  induction k using Nat.strong_induction_on with
  | _ k ih =>
    intro s w hk
    rw [print_groups]
    split_ifs with h
    · exact code_point_output_trans (code_point_output_printf _ _ w (by decide))
        (ih (outadv - (s + 4)) (by omega) (s + 4) _ rfl)
    · exact code_point_output_refl w

theorem code_point_output_print_hex (buf : List Nat) (n : Nat) (w : World σ) :
    code_point_output w (print_hex buf n w) := by
  unfold print_hex
  induction n with
  | zero => exact code_point_output_refl w
  | succ n ih =>
    rw [List.range_succ, List.foldl_append]
    exact code_point_output_trans ih (code_point_output_printf _ _ _ (by decide))

theorem code_point_output_print_replaced (L : Libc σ) (G : Globals) (u : Nat)
    (input : List Nat) (inputbytes : Nat) (input_back : List Nat) (blen : Nat)
    (cd_setup_back : iconv_t) (w : World σ) :
    code_point_output w
      (print_replaced L G u input inputbytes input_back blen cd_setup_back w) := by
  unfold print_replaced
  simp only []
  refine code_point_output_trans ?_ (code_point_output_printf "\n" _ _ (by decide))
  refine code_point_output_trans ?_ (code_point_output_print_hex _ _ _)
  refine code_point_output_trans ?_ (code_point_output_printf " -> " _ _ (by decide))
  refine code_point_output_trans ?_ (code_point_output_print_hex _ _ _)
  refine code_point_output_trans ?_ (code_point_output_printf ", %s " _ _ (by decide))
  refine code_point_output_trans ?_ (code_point_output_print_groups _ _ _ _ _ rfl)
  refine code_point_output_trans ?_ (code_point_output_call_iconv L _ _ _ _ _)
  exact code_point_output_printf "REPLACED U+%04x ->" _ _ (by decide)

/-- Every `printf` call of `test_char` uses a per-code-point format. -/
theorem code_point_output_test_char (L : Libc σ) (G : Globals) (cd cd_back : iconv_t)
    (u : Nat) (input : List Nat) (inputbytes outbuflen : Nat) (verbose : Int)
    (cd_setup_back : iconv_t) (w : World σ) :
    code_point_output w
      (test_char L G cd cd_back u input inputbytes outbuflen verbose cd_setup_back w).2 := by
  have h1 := code_point_output_call_iconv L cd input inputbytes outbuflen w
  unfold test_char
  simp only []
  split_ifs
  · exact code_point_output_trans h1 (code_point_output_printf_if _ "EILSEQ U+%04x\n" _ _ (by decide))
  · exact code_point_output_trans h1 (code_point_output_printf_if _ "ERROR U+%04x\n" _ _ (by decide))
  · exact code_point_output_trans h1
      (code_point_output_printf_if _ "DISCARDED U+%04x\n" _ _ (by decide))
  · exact code_point_output_trans (code_point_output_trans h1
      (code_point_output_call_iconv L _ _ _ _ _))
      (code_point_output_printf_if _ "BACK-ERROR U+%04x %s\n" _ _ (by decide))
  · exact code_point_output_trans (code_point_output_trans h1
      (code_point_output_call_iconv L _ _ _ _ _))
      (code_point_output_printf_if _ "BACK-DISCARDED-ERROR U+%04x\n" _ _ (by decide))
  · exact code_point_output_trans (code_point_output_trans h1
      (code_point_output_call_iconv L _ _ _ _ _))
      (code_point_output_print_replaced L G _ _ _ _ _ _ _)
  · exact code_point_output_trans h1 (code_point_output_call_iconv L _ _ _ _ _)
  · exact code_point_output_trans h1 (code_point_output_call_iconv L _ _ _ _ _)

/-- Every `printf` call of one iteration of the sweep uses a per-code-point format. -/
theorem code_point_output_sweep_body (L : Libc σ) (G : Globals)
    (cd_setup cd_setup_back cd cd_back : iconv_t) (u : Nat) (w : World σ) :
    code_point_output w (sweep_body L G cd_setup cd_setup_back cd cd_back u w) := by
  unfold sweep_body
  simp only []
  split_ifs
  · exact code_point_output_test_char L G _ _ _ _ _ _ _ _ _
  · exact code_point_output_trans (code_point_output_trans
      (code_point_output_test_char L G _ _ _ _ _ _ _ _ _)
      (code_point_output_test_char L G _ _ _ _ _ _ _ _ _))
      (code_point_output_printf "OK U+%04x\n" _ _ (by decide))
  · exact code_point_output_trans
      (code_point_output_test_char L G _ _ _ _ _ _ _ _ _)
      (code_point_output_test_char L G _ _ _ _ _ _ _ _ _)

/-! ## The canonical encoding of a code point -/

theorem and_0xff (x : Nat) : x &&& 0xff = x % 256 := by
  have h := Nat.and_pow_two_sub_one_eq_mod x 8
  norm_num at h
  exact h

/-- C14: for a code point `u ≤ 0x10FFFF` the four bytes the sweep stores in `u32` are the
big-endian representation of `u` (each byte below 256, the first one `0`, and
`u = b0 * 2^24 + b1 * 2^16 + b2 * 2^8 + b3`), and the four shifted additions of the
diagnostic decoder of `test_char`, applied to that 4-byte group, give `u` back. -/
theorem u32_bytes_big_endian (u : Nat) (hu : u ≤ 0x10FFFF) :
    ∃ b0 b1 b2 b3, u32_bytes u = [b0, b1, b2, b3] ∧
      b0 = 0 ∧ b0 < 256 ∧ b1 < 256 ∧ b2 < 256 ∧ b3 < 256 ∧
      u = b0 * 2 ^ 24 + b1 * 2 ^ 16 + b2 * 2 ^ 8 + b3 ∧
      decode_group (u32_bytes u) 0 = u := by
  refine ⟨(u >>> 24) &&& 0xff, (u >>> 16) &&& 0xff, (u >>> 8) &&& 0xff, (u >>> 0) &&& 0xff,
    rfl, ?_⟩
  unfold decode_group u32_bytes UINT_MOD
  simp only [and_0xff, Nat.shiftRight_eq_div_pow, Nat.shiftLeft_eq, List.getD_cons_zero,
    List.getD_cons_succ, Nat.zero_add, Nat.pow_zero, Nat.div_one, Nat.mul_one]
  norm_num
  omega

/-- Witness of C14: the last code point `0x10FFFF`. -/
theorem u32_bytes_big_endian_witness :
    ∃ b0 b1 b2 b3, u32_bytes 0x10FFFF = [b0, b1, b2, b3] ∧
      b0 = 0 ∧ b0 < 256 ∧ b1 < 256 ∧ b2 < 256 ∧ b3 < 256 ∧
      0x10FFFF = b0 * 2 ^ 24 + b1 * 2 ^ 16 + b2 * 2 ^ 8 + b3 ∧
      decode_group (u32_bytes 0x10FFFF) 0 = 0x10FFFF :=
  u32_bytes_big_endian 0x10FFFF (by decide)

/-! ## The library calls of `test_char` -/

theorem printf_if_calls (verbose : Int) (fmt : String) (args : List Arg) (w : World σ) :
    (printf_if verbose fmt args w).calls = w.calls ∧
    (printf_if verbose fmt args w).eng = w.eng := by
  unfold printf_if printf
  split_ifs <;> exact ⟨rfl, rfl⟩

theorem print_groups_calls (buf32 : List Nat) (outadv : Nat) :
    ∀ (k s : Nat) (w : World σ), outadv - s = k →
      (print_groups buf32 outadv s w).calls = w.calls ∧
      (print_groups buf32 outadv s w).eng = w.eng := by
  intro k
  induction k using Nat.strong_induction_on with
  | _ k ih =>
    intro s w hk
    rw [print_groups]
    split_ifs with h
    · exact ih (outadv - (s + 4)) (by omega) (s + 4) _ rfl
    · exact ⟨rfl, rfl⟩

theorem print_hex_calls (buf : List Nat) (n : Nat) (w : World σ) :
    (print_hex buf n w).calls = w.calls ∧ (print_hex buf n w).eng = w.eng := by
  unfold print_hex
  induction n with
  | zero => exact ⟨rfl, rfl⟩
  | succ n ih =>
    rw [List.range_succ, List.foldl_append]
    exact ih

theorem print_replaced_calls (L : Libc σ) (G : Globals) (u : Nat)
    (input : List Nat) (inputbytes : Nat) (input_back : List Nat) (blen : Nat)
    (cd_setup_back : iconv_t) (w : World σ) :
    (print_replaced L G u input inputbytes input_back blen cd_setup_back w).calls
      = w.calls ++ [Call.iconv cd_setup_back input_back blen 32] := by
  unfold print_replaced
  simp only [printf]
  rw [(print_hex_calls _ _ _).1, (print_hex_calls _ _ _).1]
  simp only []
  rw [(print_groups_calls _ _ _ _ _ rfl).1]
  rfl

/-- The library calls of one `test_char` invocation, in order: the forward `iconv` call on
the given input; then the backward `iconv` call on what the forward call produced, made
exactly when the forward call succeeded with non-zero output; then the diagnostic `iconv`
call on `cd_setup_back`, made exactly when `verbose` is non-zero and the result is `2`. -/
theorem test_char_calls (L : Libc σ) (G : Globals) (cd cd_back : iconv_t) (u : Nat)
    (input : List Nat) (inputbytes outbuflen : Nat) (verbose : Int) (cd_setup_back : iconv_t)
    (w : World σ) :
    (test_char L G cd cd_back u input inputbytes outbuflen verbose cd_setup_back w).2.calls
      = w.calls ++ [Call.iconv cd input inputbytes outbuflen]
        ++ (if (forward_call L cd input inputbytes outbuflen w).1.res ≠ SIZE_T_MINUS_ONE ∧
              size_sub outbuflen (forward_call L cd input inputbytes outbuflen w).1.outbytesleft
                ≠ 0
            then [Call.iconv cd_back (forward_call L cd input inputbytes outbuflen w).1.outbuf
              (size_sub outbuflen (forward_call L cd input inputbytes outbuflen w).1.outbytesleft)
              32]
            else [])
        ++ (if verbose ≠ 0 ∧
              (test_char L G cd cd_back u input inputbytes outbuflen verbose cd_setup_back
                w).1.ret = 2
            then [Call.iconv cd_setup_back
              (backward_call L cd cd_back input inputbytes outbuflen w).1.outbuf
              (size_sub 32
                (backward_call L cd cd_back input inputbytes outbuflen w).1.outbytesleft) 32]
            else []) := by
  unfold test_char backward_call forward_call
  simp only []
  split_ifs <;>
    simp_all [call_iconv, printf_if_calls, print_replaced_calls]

theorem conversions_with_self (h : iconv_t) (inbuf : List Nat) (n m : Nat) :
    conversions_with h [Call.iconv h inbuf n m] = 1 := by
  simp [conversions_with, is_conv_with]

theorem conversions_with_other (h cd : iconv_t) (inbuf : List Nat) (n m : Nat) (hne : cd ≠ h) :
    conversions_with h [Call.iconv cd inbuf n m] = 0 := by
  simp [conversions_with, is_conv_with, hne]

theorem conversions_with_append (h : iconv_t) (a b : List Call) :
    conversions_with h (a ++ b) = conversions_with h a + conversions_with h b := by
  simp [conversions_with, List.countP_append]

theorem conversions_with_nil (h : iconv_t) : conversions_with h [] = 0 := rfl

/-- C15: in one invocation of `test_char` the library calls are, in order: one `iconv`
call on `cd` with exactly the given input and length; then, exactly when the forward call
succeeded with non-zero output, one `iconv` call on `cd_back` whose input is the output
buffer with length `*outputbytes`; then at most one diagnostic call on `cd_setup_back`.
So (for descriptors that are distinct) `cd` is converted with exactly once and `cd_back`
once or not at all; no conversion is repeated. -/
theorem test_char_conversions (L : Libc σ) (G : Globals) (cd cd_back : iconv_t) (u : Nat)
    (input : List Nat) (inputbytes outbuflen : Nat) (verbose : Int) (cd_setup_back : iconv_t)
    (w : World σ) :
    ∃ back diag,
      (test_char L G cd cd_back u input inputbytes outbuflen verbose cd_setup_back w).2.calls
        = w.calls ++ ([Call.iconv cd input inputbytes outbuflen] ++ back ++ diag) ∧
      back = (if forward_ok L cd input inputbytes outbuflen w then
          [Call.iconv cd_back
            (test_char L G cd cd_back u input inputbytes outbuflen verbose cd_setup_back
              w).1.output
            (test_char L G cd cd_back u input inputbytes outbuflen verbose cd_setup_back
              w).1.outputbytes 32]
        else []) ∧
      (diag = [] ∨ ∃ inbuf k, diag = [Call.iconv cd_setup_back inbuf k 32]) ∧
      (cd ≠ cd_back → cd ≠ cd_setup_back →
        conversions_with cd ([Call.iconv cd input inputbytes outbuflen] ++ back ++ diag) = 1) ∧
      (cd_back ≠ cd → cd_back ≠ cd_setup_back →
        conversions_with cd_back ([Call.iconv cd input inputbytes outbuflen] ++ back ++ diag)
          = if forward_ok L cd input inputbytes outbuflen w then 1 else 0) := by
  have hc := test_char_calls L G cd cd_back u input inputbytes outbuflen verbose cd_setup_back w
  have ho := test_char_output L G cd cd_back u input inputbytes outbuflen verbose
    cd_setup_back w
  refine ⟨_, (if verbose ≠ 0 ∧
          (test_char L G cd cd_back u input inputbytes outbuflen verbose cd_setup_back
            w).1.ret = 2
        then [Call.iconv cd_setup_back
          (backward_call L cd cd_back input inputbytes outbuflen w).1.outbuf
          (size_sub 32
            (backward_call L cd cd_back input inputbytes outbuflen w).1.outbytesleft) 32]
        else []), ?_, rfl, ?_, ?_, ?_⟩
  · rw [hc, ho.1, ho.2]
    unfold forward_ok
    simp only [List.append_assoc]
  · split_ifs
    · exact Or.inr ⟨_, _, rfl⟩
    · exact Or.inl rfl
  · intro h1 h2
    rw [conversions_with_append, conversions_with_append, conversions_with_self]
    have hb : conversions_with cd (if forward_ok L cd input inputbytes outbuflen w then
          [Call.iconv cd_back
            (test_char L G cd cd_back u input inputbytes outbuflen verbose cd_setup_back
              w).1.output
            (test_char L G cd cd_back u input inputbytes outbuflen verbose cd_setup_back
              w).1.outputbytes 32]
        else []) = 0 := by
      split_ifs
      · exact conversions_with_other _ _ _ _ _ (Ne.symm h1)
      · rfl
    rw [hb]
    split_ifs
    · rw [conversions_with_other _ _ _ _ _ (Ne.symm h2)]
    · rfl
  · intro h1 h2
    rw [conversions_with_append, conversions_with_append,
      conversions_with_other _ _ _ _ _ (Ne.symm h1)]
    have hd : conversions_with cd_back (if verbose ≠ 0 ∧
          (test_char L G cd cd_back u input inputbytes outbuflen verbose cd_setup_back
            w).1.ret = 2
        then [Call.iconv cd_setup_back
          (backward_call L cd cd_back input inputbytes outbuflen w).1.outbuf
          (size_sub 32
            (backward_call L cd cd_back input inputbytes outbuflen w).1.outbytesleft) 32]
        else []) = 0 := by
      split_ifs
      · exact conversions_with_other _ _ _ _ _ (Ne.symm h2)
      · rfl
    rw [hd]
    split_ifs
    · rw [conversions_with_self]
    · rfl

/-- When `verbose` is zero or the result is not `2`, `test_char` does not look at
`cd_setup_back`: result and final state are the same for every value of it. -/
theorem test_char_cd_setup_back_unused (L : Libc σ) (G : Globals) (cd cd_back : iconv_t)
    (u : Nat) (input : List Nat) (inputbytes outbuflen : Nat) (verbose : Int)
    (c1 c2 : iconv_t) (w : World σ)
    (h : verbose = 0 ∨
      (test_char L G cd cd_back u input inputbytes outbuflen verbose c1 w).1.ret ≠ 2) :
    test_char L G cd cd_back u input inputbytes outbuflen verbose c1 w
      = test_char L G cd cd_back u input inputbytes outbuflen verbose c2 w := by
  have hret : verbose = 0 ∨
      ¬ ((forward_call L cd input inputbytes outbuflen w).1.res ≠ SIZE_T_MINUS_ONE ∧
        size_sub outbuflen (forward_call L cd input inputbytes outbuflen w).1.outbytesleft ≠ 0 ∧
        (backward_call L cd cd_back input inputbytes outbuflen w).1.res ≠ SIZE_T_MINUS_ONE ∧
        size_sub 32 (backward_call L cd cd_back input inputbytes outbuflen w).1.outbytesleft
          ≠ 0 ∧
        (size_sub 32 (backward_call L cd cd_back input inputbytes outbuflen w).1.outbytesleft
            ≠ inputbytes ∨
          memcmp input (backward_call L cd cd_back input inputbytes outbuflen w).1.outbuf
            inputbytes ≠ 0)) := by
    rcases h with h | h
    · exact Or.inl h
    · right
      rintro ⟨h1, h2, h3, h4, h5⟩
      apply h
      rw [test_char_ret, if_neg h1, if_neg h2, if_neg h3, if_neg h4, if_pos h5]
  unfold backward_call forward_call at hret
  unfold test_char
  simp only []
  split_ifs with a1 a2 a3 a4 a5 a6 a7 <;> try rfl
  exfalso
  rcases hret with hv | hn
  · exact a7 hv
  · exact hn ⟨a1, a3, a4, a5, a6⟩

/-- C19: `test_char` uses its argument `cd_setup_back` only when `verbose` is non-zero and
the result is `2`.  The only library call that names it is the diagnostic call, made
exactly in that case; otherwise result and final state do not depend on its value.  With
`verbose = 0` nothing is printed and the library calls are the forward call and, when it
is made, the backward call; so the first-stage call of the sweep, which passes `NULL`,
makes no `iconv` call on `NULL` (for `cd` and `cd_back` other than `NULL`). -/
theorem test_char_diagnostic_handle (L : Libc σ) (G : Globals) (cd cd_back : iconv_t)
    (u : Nat) (input : List Nat) (inputbytes outbuflen : Nat) (verbose : Int)
    (cd_setup_back : iconv_t) (w : World σ) :
    (∃ base diag,
      (test_char L G cd cd_back u input inputbytes outbuflen verbose cd_setup_back w).2.calls
        = w.calls ++ (base ++ diag) ∧
      (base = [Call.iconv cd input inputbytes outbuflen] ∨
        ∃ inbuf k, base = [Call.iconv cd input inputbytes outbuflen,
          Call.iconv cd_back inbuf k 32]) ∧
      (diag = [] ∨ ∃ inbuf k, diag = [Call.iconv cd_setup_back inbuf k 32]) ∧
      (diag ≠ [] ↔ verbose ≠ 0 ∧
        (test_char L G cd cd_back u input inputbytes outbuflen verbose cd_setup_back w).1.ret
          = 2)) ∧
    (verbose = 0 ∨
        (test_char L G cd cd_back u input inputbytes outbuflen verbose cd_setup_back w).1.ret
          ≠ 2 →
      ∀ c : iconv_t, test_char L G cd cd_back u input inputbytes outbuflen verbose c w
        = test_char L G cd cd_back u input inputbytes outbuflen verbose cd_setup_back w) ∧
    (test_char L G cd cd_back u input inputbytes outbuflen 0 cd_setup_back w).2.out = w.out ∧
    (∃ base,
      (test_char L G cd cd_back u input inputbytes outbuflen 0 NULL w).2.calls
        = w.calls ++ base ∧
      (cd ≠ NULL → cd_back ≠ NULL → conversions_with NULL base = 0)) := by
  have hc := test_char_calls L G cd cd_back u input inputbytes outbuflen verbose cd_setup_back w
  refine ⟨⟨[Call.iconv cd input inputbytes outbuflen] ++
      (if (forward_call L cd input inputbytes outbuflen w).1.res ≠ SIZE_T_MINUS_ONE ∧
          size_sub outbuflen (forward_call L cd input inputbytes outbuflen w).1.outbytesleft ≠ 0
        then [Call.iconv cd_back (forward_call L cd input inputbytes outbuflen w).1.outbuf
          (size_sub outbuflen (forward_call L cd input inputbytes outbuflen w).1.outbytesleft)
          32]
        else []),
      (if verbose ≠ 0 ∧
          (test_char L G cd cd_back u input inputbytes outbuflen verbose cd_setup_back
            w).1.ret = 2
        then [Call.iconv cd_setup_back
          (backward_call L cd cd_back input inputbytes outbuflen w).1.outbuf
          (size_sub 32
            (backward_call L cd cd_back input inputbytes outbuflen w).1.outbytesleft) 32]
        else []), ?_, ?_, ?_, ?_⟩, ?_, ?_, ?_⟩
  · rw [hc]
    simp only [List.append_assoc]
  · split_ifs
    · exact Or.inr ⟨_, _, rfl⟩
    · exact Or.inl rfl
  · split_ifs
    · exact Or.inr ⟨_, _, rfl⟩
    · exact Or.inl rfl
  · split_ifs with h
    · simp [h]
    · simp [h]
  · intro h c
    exact (test_char_cd_setup_back_unused L G cd cd_back u input inputbytes outbuflen verbose
      cd_setup_back c w h).symm
  · exact (test_char_quiet L G cd cd_back u input inputbytes outbuflen cd_setup_back w).1
  · rcases (test_char_quiet L G cd cd_back u input inputbytes outbuflen NULL w).2 with hq | hq
    · refine ⟨_, hq, ?_⟩
      intro h1 _
      exact conversions_with_other _ _ _ _ _ h1
    · refine ⟨_, hq, ?_⟩
      intro h1 h2
      have e : [Call.iconv cd input inputbytes outbuflen,
          Call.iconv cd_back (forward_call L cd input inputbytes outbuflen w).1.outbuf
            (size_sub outbuflen (forward_call L cd input inputbytes outbuflen w).1.outbytesleft)
            32]
          = [Call.iconv cd input inputbytes outbuflen] ++
            [Call.iconv cd_back (forward_call L cd input inputbytes outbuflen w).1.outbuf
              (size_sub outbuflen
                (forward_call L cd input inputbytes outbuflen w).1.outbytesleft) 32] := rfl
      rw [e, conversions_with_append, conversions_with_other _ _ _ _ _ h1,
        conversions_with_other _ _ _ _ _ h2]

/-! ## Buffer lengths -/

theorem size_sub_of_le (a b : Nat) (hb : b ≤ a) (ha : a < SIZE_MOD) :
    size_sub a b = a - b := by
  unfold size_sub
  unfold SIZE_MOD at *
  omega

/-- The `iconv` of the concrete library never increases `outbytesleft`. -/
theorem toy_iconv_outbytesleft_le (h : iconv_t) (inbuf : List Nat) (n c : Nat) (s : Nat) :
    (toyLibc.iconv h inbuf n c s).1.outbytesleft ≤ c := by
  show (toy_iconv h inbuf n c s).1.outbytesleft ≤ c
  unfold toy_iconv
  simp only []
  split_ifs <;> simp

/-- C17: buffer invariant.  Provided no `iconv` call leaves `outbytesleft` larger than the
capacity it was given (and `outbuflen` is a `size_t` value), the lengths `test_char`
computes do not exceed the capacities: `*outputbytes` is the true difference
`outbuflen - outbytesleft`, at most `outbuflen`, on every path, and the round-trip length
`blen` is the true difference `32 - outbytesleft`, at most `32`; neither subtraction
wraps. -/
theorem test_char_lengths_bounded (L : Libc σ) (G : Globals) (cd cd_back : iconv_t) (u : Nat)
    (input : List Nat) (inputbytes outbuflen : Nat) (verbose : Int) (cd_setup_back : iconv_t)
    (w : World σ)
    (hengine : ∀ (h : iconv_t) (inbuf : List Nat) (n c : Nat) (s : σ),
      (L.iconv h inbuf n c s).1.outbytesleft ≤ c)
    (hcap : outbuflen < SIZE_MOD) :
    (forward_call L cd input inputbytes outbuflen w).1.outbytesleft ≤ outbuflen ∧
    (test_char L G cd cd_back u input inputbytes outbuflen verbose cd_setup_back w).1.outputbytes
      = outbuflen - (forward_call L cd input inputbytes outbuflen w).1.outbytesleft ∧
    (test_char L G cd cd_back u input inputbytes outbuflen verbose cd_setup_back w).1.outputbytes
      ≤ outbuflen ∧
    (backward_call L cd cd_back input inputbytes outbuflen w).1.outbytesleft ≤ 32 ∧
    size_sub 32 (backward_call L cd cd_back input inputbytes outbuflen w).1.outbytesleft
      = 32 - (backward_call L cd cd_back input inputbytes outbuflen w).1.outbytesleft ∧
    size_sub 32 (backward_call L cd cd_back input inputbytes outbuflen w).1.outbytesleft
      ≤ 32 := by
  have hf : (forward_call L cd input inputbytes outbuflen w).1.outbytesleft ≤ outbuflen := by
    unfold forward_call call_iconv
    exact hengine _ _ _ _ _
  have hb : (backward_call L cd cd_back input inputbytes outbuflen w).1.outbytesleft ≤ 32 := by
    unfold backward_call call_iconv
    exact hengine _ _ _ _ _
  have ho := (test_char_output L G cd cd_back u input inputbytes outbuflen verbose
    cd_setup_back w).2
  have e1 := size_sub_of_le outbuflen _ hf hcap
  have e2 := size_sub_of_le 32 _ hb (by unfold SIZE_MOD; norm_num)
  refine ⟨hf, ?_, ?_, hb, e2, ?_⟩
  · rw [ho, e1]
  · rw [ho, e1]; omega
  · rw [e2]; omega

/-- Witness of C17: the concrete library, forward through the substituting descriptor `5`
and backward through the copying descriptor `1`, into a buffer of capacity `32`. -/
theorem test_char_lengths_bounded_witness :
    (forward_call toyLibc 5 [65] 1 32 world0).1.outbytesleft ≤ 32 ∧
    (test_char toyLibc toyGlobals 5 1 65 [65] 1 32 1 1 world0).1.outputbytes
      = 32 - (forward_call toyLibc 5 [65] 1 32 world0).1.outbytesleft ∧
    (test_char toyLibc toyGlobals 5 1 65 [65] 1 32 1 1 world0).1.outputbytes ≤ 32 ∧
    (backward_call toyLibc 5 1 [65] 1 32 world0).1.outbytesleft ≤ 32 ∧
    size_sub 32 (backward_call toyLibc 5 1 [65] 1 32 world0).1.outbytesleft
      = 32 - (backward_call toyLibc 5 1 [65] 1 32 world0).1.outbytesleft ∧
    size_sub 32 (backward_call toyLibc 5 1 [65] 1 32 world0).1.outbytesleft ≤ 32 :=
  test_char_lengths_bounded toyLibc toyGlobals 5 1 65 [65] 1 32 1 1 world0
    toy_iconv_outbytesleft_le (by decide)

/-- Counterexample to C16: a forward illegal-sequence rejection (descriptor `2`) and a
forward success with zero output bytes (descriptor `3`) are different outcomes, REJECTED
and DISCARDED, and `test_char` returns the same value `1` for both. -/
theorem return_value_conflates_rejected_discarded :
    spec_outcome toyLibc 2 1 [65] 1 32 world0 = Outcome.REJECTED ∧
    spec_outcome toyLibc 3 1 [65] 1 32 world0 = Outcome.DISCARDED ∧
    Outcome.REJECTED ≠ Outcome.DISCARDED ∧
    (test_char toyLibc toyGlobals 2 1 65 [65] 1 32 0 1 world0).1.ret = 1 ∧
    (test_char toyLibc toyGlobals 3 1 65 [65] 1 32 0 1 world0).1.ret = 1 ∧
    (test_char toyLibc toyGlobals 2 1 65 [65] 1 32 0 1 world0).1.ret
      = (test_char toyLibc toyGlobals 3 1 65 [65] 1 32 0 1 world0).1.ret := by
  decide

theorem return_code_eq_iff (o1 o2 : Outcome) :
    return_code o1 = return_code o2 ↔
      (o1 = o2 ∨ (o1 = Outcome.REJECTED ∧ o2 = Outcome.DISCARDED) ∨
        (o1 = Outcome.DISCARDED ∧ o2 = Outcome.REJECTED)) := by
  cases o1 <;> cases o2 <;> decide

/-- C16 as amended: the value `test_char` returns is the return code of the outcome that
occurred, and the return codes tell the outcomes apart except REJECTED from DISCARDED:
two runs return the same value exactly when their outcomes are equal or one is REJECTED
and the other DISCARDED (both return `1`). -/
theorem test_char_return_identifies_outcome (L1 L2 : Libc σ) (G1 G2 : Globals)
    (cd1 cd_back1 cd2 cd_back2 : iconv_t) (u1 u2 : Nat) (input1 input2 : List Nat)
    (inputbytes1 outbuflen1 inputbytes2 outbuflen2 : Nat) (verbose1 verbose2 : Int)
    (cd_setup_back1 cd_setup_back2 : iconv_t) (w1 w2 : World σ) :
    (test_char L1 G1 cd1 cd_back1 u1 input1 inputbytes1 outbuflen1 verbose1 cd_setup_back1
        w1).1.ret
      = return_code (spec_outcome L1 cd1 cd_back1 input1 inputbytes1 outbuflen1 w1) ∧
    ((test_char L1 G1 cd1 cd_back1 u1 input1 inputbytes1 outbuflen1 verbose1 cd_setup_back1
          w1).1.ret
        = (test_char L2 G2 cd2 cd_back2 u2 input2 inputbytes2 outbuflen2 verbose2
          cd_setup_back2 w2).1.ret ↔
      (spec_outcome L1 cd1 cd_back1 input1 inputbytes1 outbuflen1 w1
          = spec_outcome L2 cd2 cd_back2 input2 inputbytes2 outbuflen2 w2 ∨
        (spec_outcome L1 cd1 cd_back1 input1 inputbytes1 outbuflen1 w1 = Outcome.REJECTED ∧
          spec_outcome L2 cd2 cd_back2 input2 inputbytes2 outbuflen2 w2 = Outcome.DISCARDED) ∨
        (spec_outcome L1 cd1 cd_back1 input1 inputbytes1 outbuflen1 w1 = Outcome.DISCARDED ∧
          spec_outcome L2 cd2 cd_back2 input2 inputbytes2 outbuflen2 w2
            = Outcome.REJECTED))) := by
  have key : ∀ (L : Libc σ) (G : Globals) (cd cd_back : iconv_t) (u : Nat) (input : List Nat)
      (inputbytes outbuflen : Nat) (verbose : Int) (cd_setup_back : iconv_t) (w : World σ),
      (test_char L G cd cd_back u input inputbytes outbuflen verbose cd_setup_back w).1.ret
        = return_code (spec_outcome L cd cd_back input inputbytes outbuflen w) := by
    intro L G cd cd_back u input inputbytes outbuflen verbose cd_setup_back w
    rw [test_char_ret]
    unfold spec_outcome
    simp only []
    split_ifs <;> first | rfl | (exfalso; tauto)
  rw [key L1, key L2]
  exact ⟨rfl, return_code_eq_iff _ _⟩

/-! ## The sweep loop -/

theorem sweep_loop_eq_foldl_range' (L : Libc σ) (G : Globals)
    (cd_setup cd_setup_back cd cd_back : iconv_t) :
    ∀ (n u : Nat) (w : World σ), u + n = 0x110000 →
      sweep_loop L G cd_setup cd_setup_back cd cd_back u w
        = (List.range' u n).foldl
            (fun w u => sweep_body L G cd_setup cd_setup_back cd cd_back u w) w := by
  intro n
  induction n with
  | zero =>
    intro u w hu
    rw [sweep_loop, if_neg (by omega)]
    rfl
  | succ n ih =>
    intro u w hu
    have hmod : (u + 1) % UINT_MOD = u + 1 := Nat.mod_eq_of_lt (by unfold UINT_MOD; omega)
    rw [sweep_loop, if_pos (by omega), hmod, ih (u + 1) _ (by omega)]
    rfl

theorem sweep_loop_eq_foldl (L : Libc σ) (G : Globals)
    (cd_setup cd_setup_back cd cd_back : iconv_t) (w : World σ) :
    sweep_loop L G cd_setup cd_setup_back cd cd_back 0 w
      = (List.range 0x110000).foldl
          (fun w u => sweep_body L G cd_setup cd_setup_back cd cd_back u w) w := by
  rw [sweep_loop_eq_foldl_range' L G cd_setup cd_setup_back cd cd_back 0x110000 0 w (by norm_num),
    List.range_eq_range']

/-- What `test_nonrepresentable` does when the four descriptors are valid: the sweep from
the state after the setup, then the two `iconv_close` calls, then `return 0`. -/
theorem test_nonrepresentable_opened (L : Libc σ) (G : Globals) (w : World σ)
    (h1 : (open_handles L G w).1.1 ≠ ICONV_T_MINUS_ONE)
    (h2 : (open_handles L G w).1.2.1 ≠ ICONV_T_MINUS_ONE)
    (h3 : (open_handles L G w).1.2.2.1 ≠ ICONV_T_MINUS_ONE)
    (h4 : (open_handles L G w).1.2.2.2 ≠ ICONV_T_MINUS_ONE) :
    test_nonrepresentable L G w
      = (0, (call_iconv_close L (open_handles L G w).1.2.2.2
          (call_iconv_close L (open_handles L G w).1.2.2.1
            (sweep_loop L G (open_handles L G w).1.1 (open_handles L G w).1.2.1
              (open_handles L G w).1.2.2.1 (open_handles L G w).1.2.2.2 0
              (setup_state L G w))).2).2) := by
  unfold test_nonrepresentable setup_state
  simp only [h1, h2, h3, h4, or_self, if_false]

/-- C11: when the four descriptors are valid, `test_nonrepresentable` returns (`0`), and
its sweep loop terminates having run the loop body once for each code point of
`0, 1, ..., 0x10FFFF` in ascending order (`0x110000` values, none twice), each iteration
starting from the state the previous one left, whatever the outcomes of the iterations
are; the two `iconv_close` calls follow the last iteration. -/
theorem sweep_covers_every_code_point (L : Libc σ) (G : Globals) (w : World σ)
    (h1 : (open_handles L G w).1.1 ≠ ICONV_T_MINUS_ONE)
    (h2 : (open_handles L G w).1.2.1 ≠ ICONV_T_MINUS_ONE)
    (h3 : (open_handles L G w).1.2.2.1 ≠ ICONV_T_MINUS_ONE)
    (h4 : (open_handles L G w).1.2.2.2 ≠ ICONV_T_MINUS_ONE) :
    (test_nonrepresentable L G w).1 = 0 ∧
    (test_nonrepresentable L G w).2
      = (call_iconv_close L (open_handles L G w).1.2.2.2
          (call_iconv_close L (open_handles L G w).1.2.2.1
            ((List.range 0x110000).foldl
              (fun x u => sweep_body L G (open_handles L G w).1.1 (open_handles L G w).1.2.1
                (open_handles L G w).1.2.2.1 (open_handles L G w).1.2.2.2 u x)
              (setup_state L G w))).2).2 ∧
    (List.range 0x110000).length = 0x110000 ∧
    (∀ u, u ∈ List.range 0x110000 ↔ u ≤ 0x10FFFF) ∧
    (List.range 0x110000).Nodup ∧
    (List.range 0x110000).Sorted (fun a b => a < b) := by
  rw [test_nonrepresentable_opened L G w h1 h2 h3 h4, sweep_loop_eq_foldl]
  refine ⟨rfl, rfl, List.length_range _, ?_, List.nodup_range _, List.sorted_lt_range _⟩
  intro u
  rw [List.mem_range]
  omega

/-- Witness of C11: the second concrete library opens the four descriptors of the run from
`"A"` to `"B"`. -/
theorem sweep_covers_every_code_point_witness :
    (test_nonrepresentable toyLibc4 toyGlobals world0).1 = 0 ∧
    (test_nonrepresentable toyLibc4 toyGlobals world0).2
      = (call_iconv_close toyLibc4 (open_handles toyLibc4 toyGlobals world0).1.2.2.2
          (call_iconv_close toyLibc4 (open_handles toyLibc4 toyGlobals world0).1.2.2.1
            ((List.range 0x110000).foldl
              (fun x u => sweep_body toyLibc4 toyGlobals
                (open_handles toyLibc4 toyGlobals world0).1.1
                (open_handles toyLibc4 toyGlobals world0).1.2.1
                (open_handles toyLibc4 toyGlobals world0).1.2.2.1
                (open_handles toyLibc4 toyGlobals world0).1.2.2.2 u x)
              (setup_state toyLibc4 toyGlobals world0))).2).2 ∧
    (List.range 0x110000).length = 0x110000 ∧
    (∀ u, u ∈ List.range 0x110000 ↔ u ≤ 0x10FFFF) ∧
    (List.range 0x110000).Nodup ∧
    (List.range 0x110000).Sorted (fun a b => a < b) :=
  sweep_covers_every_code_point toyLibc4 toyGlobals world0
    (by decide) (by decide) (by decide) (by decide)

/-! ## Release of the descriptors -/

theorem close_calls_append (a b : List Call) :
    close_calls (a ++ b) = close_calls a ++ close_calls b := by
  unfold close_calls
  exact List.filter_append _ _

theorem no_close_refl (w : World σ) : no_close w w :=
  ⟨[], by simp, rfl⟩

theorem no_close_of_calls_eq {w1 w2 : World σ} (h : w2.calls = w1.calls) : no_close w1 w2 :=
  ⟨[], by simp [h], rfl⟩

theorem no_close_trans {w1 w2 w3 : World σ} (h12 : no_close w1 w2) (h23 : no_close w2 w3) :
    no_close w1 w3 := by
  obtain ⟨a, ha, hA⟩ := h12
  obtain ⟨b, hb, hB⟩ := h23
  refine ⟨a ++ b, by rw [hb, ha, List.append_assoc], ?_⟩
  rw [close_calls_append, hA, hB]
  rfl

theorem no_close_printf (fmt : String) (args : List Arg) (w : World σ) :
    no_close w (printf fmt args w) :=
  no_close_of_calls_eq rfl

theorem no_close_iconvctl (L : Libc σ) (cd : iconv_t) (request arg : Int) (w : World σ) :
    no_close w (call_iconvctl L cd request arg w).2 :=
  ⟨[Call.iconvctl cd request arg], rfl, rfl⟩

theorem no_close_iconv_open (L : Libc σ) (tocode fromcode : String) (w : World σ) :
    no_close w (call_iconv_open L tocode fromcode w).2 :=
  ⟨[Call.iconv_open tocode fromcode], rfl, rfl⟩

theorem no_close_open_handles (L : Libc σ) (G : Globals) (w : World σ) :
    no_close w (open_handles L G w).2 := by
  unfold open_handles
  simp only []
  exact no_close_trans (no_close_trans (no_close_trans
    (no_close_iconv_open L _ _ _) (no_close_iconv_open L _ _ _))
    (no_close_iconv_open L _ _ _)) (no_close_iconv_open L _ _ _)

theorem no_close_report_iconvctl (L : Libc σ) (cd : iconv_t) (code : Int) (msg : String)
    (w : World σ) : no_close w (report_iconvctl L cd code msg w) := by
  unfold report_iconvctl
  simp only []
  split_ifs
  · exact no_close_trans (no_close_iconvctl L _ _ _ _) (no_close_printf _ _ _)
  · exact no_close_trans (no_close_iconvctl L _ _ _ _) (no_close_printf _ _ _)

theorem no_close_set_transliterate (L : Libc σ) (G : Globals) (cd : iconv_t) (w : World σ) :
    no_close w (set_transliterate L G cd w) := by
  unfold set_transliterate
  simp only []
  split_ifs
  all_goals first
    | exact no_close_refl w
    | exact no_close_trans (no_close_trans (no_close_trans
        (no_close_printf _ _ _) (no_close_report_iconvctl L _ _ _ _))
        (no_close_iconvctl L _ _ _ _)) (no_close_printf _ _ _)

theorem no_close_set_ilseq_invalid (L : Libc σ) (G : Globals) (cd : iconv_t) (w : World σ) :
    no_close w (set_ilseq_invalid L G cd w) := by
  unfold set_ilseq_invalid
  simp only []
  split_ifs
  all_goals first
    | exact no_close_refl w
    | exact no_close_trans (no_close_trans (no_close_trans
        (no_close_printf _ _ _) (no_close_report_iconvctl L _ _ _ _))
        (no_close_iconvctl L _ _ _ _)) (no_close_printf _ _ _)

theorem no_close_iconvctl_section (L : Libc σ) (G : Globals) (cd : iconv_t) (w : World σ) :
    no_close w (iconvctl_section L G cd w) := by
  unfold iconvctl_section
  simp only []
  exact no_close_trans (no_close_trans (no_close_trans (no_close_trans
    (no_close_set_transliterate L G cd w) (no_close_set_ilseq_invalid L G cd _))
    (no_close_report_iconvctl L _ _ _ _)) (no_close_report_iconvctl L _ _ _ _))
    (no_close_report_iconvctl L _ _ _ _)

theorem no_close_setup_state (L : Libc σ) (G : Globals) (w : World σ) :
    no_close w (setup_state L G w) := by
  unfold setup_state
  simp only []
  have h12 := no_close_trans (no_close_trans (no_close_open_handles L G w)
    (no_close_printf "source encoding: %s\n" [Arg.str G.SOURCE_ENCODING] (open_handles L G w).2))
    (no_close_printf "target encoding: %s\n" [Arg.str G.TARGET_ENCODING]
      (printf "source encoding: %s\n" [Arg.str G.SOURCE_ENCODING] (open_handles L G w).2))
  split_ifs
  · exact no_close_trans h12 (no_close_iconvctl_section L G _ _)
  · exact h12

theorem no_close_test_char (L : Libc σ) (G : Globals) (cd cd_back : iconv_t) (u : Nat)
    (input : List Nat) (inputbytes outbuflen : Nat) (verbose : Int) (cd_setup_back : iconv_t)
    (w : World σ) :
    no_close w
      (test_char L G cd cd_back u input inputbytes outbuflen verbose cd_setup_back w).2 := by
  have hc := test_char_calls L G cd cd_back u input inputbytes outbuflen verbose cd_setup_back w
  rw [List.append_assoc, List.append_assoc] at hc
  refine ⟨_, hc, ?_⟩
  rw [close_calls_append, close_calls_append]
  split_ifs <;> rfl

theorem no_close_sweep_body (L : Libc σ) (G : Globals)
    (cd_setup cd_setup_back cd cd_back : iconv_t) (u : Nat) (w : World σ) :
    no_close w (sweep_body L G cd_setup cd_setup_back cd cd_back u w) := by
  unfold sweep_body
  simp only []
  split_ifs
  · exact no_close_test_char L G _ _ _ _ _ _ _ _ _
  · exact no_close_trans (no_close_trans (no_close_test_char L G _ _ _ _ _ _ _ _ _)
      (no_close_test_char L G _ _ _ _ _ _ _ _ _)) (no_close_printf _ _ _)
  · exact no_close_trans (no_close_test_char L G _ _ _ _ _ _ _ _ _)
      (no_close_test_char L G _ _ _ _ _ _ _ _ _)

theorem no_close_foldl_sweep_body (L : Libc σ) (G : Globals)
    (cd_setup cd_setup_back cd cd_back : iconv_t) (us : List Nat) :
    ∀ w : World σ, no_close w
      (us.foldl (fun w u => sweep_body L G cd_setup cd_setup_back cd cd_back u w) w) := by
  induction us with
  | nil => intro w; exact no_close_refl w
  | cons u us ih =>
    intro w
    rw [List.foldl_cons]
    exact no_close_trans (no_close_sweep_body L G _ _ _ _ u w) (ih _)

/-- The code on C13: after a completed sweep, the `iconv_close` calls `test_nonrepresentable`
has made are `iconv_close(cd)` and `iconv_close(cd_back)` and no other: `cd_setup` and
`cd_setup_back` (as descriptors distinct from those two) are never closed. -/
theorem test_nonrepresentable_closes_only_two (L : Libc σ) (G : Globals) (w : World σ)
    (h1 : (open_handles L G w).1.1 ≠ ICONV_T_MINUS_ONE)
    (h2 : (open_handles L G w).1.2.1 ≠ ICONV_T_MINUS_ONE)
    (h3 : (open_handles L G w).1.2.2.1 ≠ ICONV_T_MINUS_ONE)
    (h4 : (open_handles L G w).1.2.2.2 ≠ ICONV_T_MINUS_ONE) :
    ∃ new, (test_nonrepresentable L G w).2.calls = w.calls ++ new ∧
      close_calls new = [Call.iconv_close (open_handles L G w).1.2.2.1,
        Call.iconv_close (open_handles L G w).1.2.2.2] ∧
      ((open_handles L G w).1.1 ≠ (open_handles L G w).1.2.2.1 →
        (open_handles L G w).1.1 ≠ (open_handles L G w).1.2.2.2 →
        Call.iconv_close (open_handles L G w).1.1 ∉ new) ∧
      ((open_handles L G w).1.2.1 ≠ (open_handles L G w).1.2.2.1 →
        (open_handles L G w).1.2.1 ≠ (open_handles L G w).1.2.2.2 →
        Call.iconv_close (open_handles L G w).1.2.1 ∉ new) := by
  obtain ⟨a, ha, hA⟩ := no_close_trans (no_close_setup_state L G w)
    (no_close_foldl_sweep_body L G (open_handles L G w).1.1 (open_handles L G w).1.2.1
      (open_handles L G w).1.2.2.1 (open_handles L G w).1.2.2.2 (List.range 0x110000)
      (setup_state L G w))
  have hcl : close_calls (a ++ [Call.iconv_close (open_handles L G w).1.2.2.1,
      Call.iconv_close (open_handles L G w).1.2.2.2])
      = [Call.iconv_close (open_handles L G w).1.2.2.1,
        Call.iconv_close (open_handles L G w).1.2.2.2] := by
    rw [close_calls_append, hA]
    rfl
  have hmem : ∀ h : iconv_t, Call.iconv_close h ∈ a ++
      [Call.iconv_close (open_handles L G w).1.2.2.1,
        Call.iconv_close (open_handles L G w).1.2.2.2] →
      h = (open_handles L G w).1.2.2.1 ∨ h = (open_handles L G w).1.2.2.2 := by
    intro h hm
    have hm2 : Call.iconv_close h ∈ close_calls (a ++
        [Call.iconv_close (open_handles L G w).1.2.2.1,
          Call.iconv_close (open_handles L G w).1.2.2.2]) := by
      unfold close_calls
      exact List.mem_filter.2 ⟨hm, rfl⟩
    rw [hcl] at hm2
    simp only [List.mem_cons, List.mem_singleton, List.not_mem_nil, or_false,
      Call.iconv_close.injEq] at hm2
    exact hm2
  refine ⟨a ++ [Call.iconv_close (open_handles L G w).1.2.2.1,
    Call.iconv_close (open_handles L G w).1.2.2.2], ?_, hcl, ?_, ?_⟩
  · rw [test_nonrepresentable_opened L G w h1 h2 h3 h4, sweep_loop_eq_foldl]
    show ((List.foldl _ (setup_state L G w) (List.range 0x110000)).calls ++ _) ++ _ = _
    rw [ha]
    simp only [List.append_assoc, List.singleton_append]
  · intro n1 n2 hm
    rcases hmem _ hm with e | e
    · exact n1 e
    · exact n2 e
  · intro n1 n2 hm
    rcases hmem _ hm with e | e
    · exact n1 e
    · exact n2 e

/-- Witness of the code on C13: the second concrete library hands out four distinct
descriptors. -/
theorem test_nonrepresentable_closes_only_two_witness :
    ∃ new, (test_nonrepresentable toyLibc4 toyGlobals world0).2.calls = world0.calls ++ new ∧
      close_calls new = [Call.iconv_close (open_handles toyLibc4 toyGlobals world0).1.2.2.1,
        Call.iconv_close (open_handles toyLibc4 toyGlobals world0).1.2.2.2] ∧
      ((open_handles toyLibc4 toyGlobals world0).1.1
          ≠ (open_handles toyLibc4 toyGlobals world0).1.2.2.1 →
        (open_handles toyLibc4 toyGlobals world0).1.1
          ≠ (open_handles toyLibc4 toyGlobals world0).1.2.2.2 →
        Call.iconv_close (open_handles toyLibc4 toyGlobals world0).1.1 ∉ new) ∧
      ((open_handles toyLibc4 toyGlobals world0).1.2.1
          ≠ (open_handles toyLibc4 toyGlobals world0).1.2.2.1 →
        (open_handles toyLibc4 toyGlobals world0).1.2.1
          ≠ (open_handles toyLibc4 toyGlobals world0).1.2.2.2 →
        Call.iconv_close (open_handles toyLibc4 toyGlobals world0).1.2.1 ∉ new) :=
  test_nonrepresentable_closes_only_two toyLibc4 toyGlobals world0
    (by decide) (by decide) (by decide) (by decide)

/-! ## The text of the per-code-point lines -/

theorem hex_digit_ne_newline (d : Nat) : hex_digit d ≠ '\n' := by
  unfold hex_digit
  by_cases h : d < 16
  · interval_cases d <;> decide
  · rw [List.getD_eq_default _ _ (by simpa using Nat.le_of_not_lt h)]
    decide

theorem newlines_append (a b : List Char) : newlines (a ++ b) = newlines a + newlines b := by
  unfold newlines
  exact List.count_append _ _ _

theorem newlines_cons_ne (c : Char) (cs : List Char) (h : c ≠ '\n') :
    newlines (c :: cs) = newlines cs := by
  unfold newlines
  exact List.count_cons_of_ne (Ne.symm h) _

theorem newlines_eq_zero_of_not_mem (cs : List Char) (h : '\n' ∉ cs) : newlines cs = 0 := by
  unfold newlines
  exact List.count_eq_zero.2 h

theorem newlines_fmt_hex (width n : Nat) : newlines (fmt_hex width n) = 0 := by
  apply newlines_eq_zero_of_not_mem
  unfold fmt_hex
  simp only [List.mem_append, List.mem_replicate, List.mem_map, not_or]
  constructor
  · rintro ⟨_, h⟩
    exact absurd h (by decide)
  · rintro ⟨d, _, h⟩
    exact hex_digit_ne_newline d h

theorem render_append (a b : List Printf) : render (a ++ b) = render a ++ render b := by
  induction a with
  | nil => rfl
  | cons p ps ih =>
    show render_printf p ++ render (ps ++ b) = render_printf p ++ render ps ++ render b
    rw [ih, List.append_assoc]

theorem render_singleton (p : Printf) : render [p] = render_printf p := by
  show render_printf p ++ [] = render_printf p
  exact List.append_nil _

theorem newlines_inline (G : Globals) (p : Printf) (h : inline_printf G p)
    (henc : '\n' ∉ G.SOURCE_ENCODING.toList) : newlines (render_printf p) = 0 := by
  rcases h with ⟨n, rfl⟩ | rfl | ⟨n, rfl⟩ | rfl
  · show newlines (" U+".toList ++ (fmt_hex 4 n ++ [])) = 0
    rw [newlines_append, newlines_append, newlines_fmt_hex]
    rfl
  · show newlines (", ".toList ++ (G.SOURCE_ENCODING.toList ++ " ".toList)) = 0
    rw [newlines_append, newlines_append, newlines_eq_zero_of_not_mem _ henc]
    rfl
  · show newlines (fmt_hex 2 n ++ []) = 0
    rw [newlines_append, newlines_fmt_hex]
    rfl
  · rfl

theorem newlines_render_inline (G : Globals) (henc : '\n' ∉ G.SOURCE_ENCODING.toList) :
    ∀ mid : List Printf, (∀ p, p ∈ mid → inline_printf G p) → newlines (render mid) = 0 := by
  intro mid
  induction mid with
  | nil => intro _; rfl
  | cons p ps ih =>
    intro h
    show newlines (render_printf p ++ render ps) = 0
    rw [newlines_append, newlines_inline G p (h p (List.mem_cons_self _ _)) henc,
      ih (fun q hq => h q (List.mem_cons_of_mem _ hq))]

theorem inline_output_refl (G : Globals) (w : World σ) : inline_output G w w :=
  ⟨[], by simp, by simp⟩

theorem inline_output_trans {G : Globals} {w1 w2 w3 : World σ} (h12 : inline_output G w1 w2)
    (h23 : inline_output G w2 w3) : inline_output G w1 w3 := by
  obtain ⟨a, ha, hA⟩ := h12
  obtain ⟨b, hb, hB⟩ := h23
  refine ⟨a ++ b, by rw [hb, ha, List.append_assoc], ?_⟩
  intro p hp
  rcases List.mem_append.1 hp with h | h
  · exact hA p h
  · exact hB p h

theorem inline_output_printf (G : Globals) (fmt : String) (args : List Arg) (w : World σ)
    (h : inline_printf G ⟨fmt, args⟩) : inline_output G w (printf fmt args w) := by
  refine ⟨[⟨fmt, args⟩], rfl, ?_⟩
  intro p hp
  simp only [List.mem_singleton] at hp
  rw [hp]
  exact h

theorem inline_output_print_groups (G : Globals) (buf32 : List Nat) (outadv : Nat) :
    ∀ (k s : Nat) (w : World σ), outadv - s = k →
      inline_output G w (print_groups buf32 outadv s w) := by
  intro k
  induction k using Nat.strong_induction_on with
  | _ k ih =>
    intro s w hk
    rw [print_groups]
    split_ifs with h
    · exact inline_output_trans (inline_output_printf G _ _ w (Or.inl ⟨_, rfl⟩))
        (ih (outadv - (s + 4)) (by omega) (s + 4) _ rfl)
    · exact inline_output_refl G w

theorem inline_output_print_hex (G : Globals) (buf : List Nat) (n : Nat) (w : World σ) :
    inline_output G w (print_hex buf n w) := by
  unfold print_hex
  induction n with
  | zero => exact inline_output_refl G w
  | succ n ih =>
    rw [List.range_succ, List.foldl_append]
    exact inline_output_trans ih
      (inline_output_printf G _ _ _ (Or.inr (Or.inr (Or.inl ⟨_, rfl⟩))))

/-- What the verbose block of the `REPLACED` branch prints: the head of the line, then
`printf` calls of the inside of the line, then the `printf` of the newline. -/
theorem print_replaced_out (L : Libc σ) (G : Globals) (u : Nat)
    (input : List Nat) (inputbytes : Nat) (input_back : List Nat) (blen : Nat)
    (cd_setup_back : iconv_t) (w : World σ) :
    ∃ mid, (print_replaced L G u input inputbytes input_back blen cd_setup_back w).out
        = w.out ++ (⟨"REPLACED U+%04x ->", [Arg.uint u]⟩ :: (mid ++ [⟨"\n", []⟩])) ∧
      ∀ p, p ∈ mid → inline_printf G p := by
  have hmid : inline_output G
      (call_iconv L cd_setup_back input_back blen 32
        (printf "REPLACED U+%04x ->" [Arg.uint u] w)).2
      (print_hex input_back blen (printf " -> " []
        (print_hex input inputbytes (printf ", %s " [Arg.str G.SOURCE_ENCODING]
          (print_groups
            (call_iconv L cd_setup_back input_back blen 32
              (printf "REPLACED U+%04x ->" [Arg.uint u] w)).1.outbuf
            (call_iconv L cd_setup_back input_back blen 32
              (printf "REPLACED U+%04x ->" [Arg.uint u] w)).1.outadv 0
            (call_iconv L cd_setup_back input_back blen 32
              (printf "REPLACED U+%04x ->" [Arg.uint u] w)).2))))) :=
    inline_output_trans (inline_output_trans (inline_output_trans (inline_output_trans
      (inline_output_print_groups G _ _ _ _ _ rfl)
      (inline_output_printf G _ _ _ (Or.inr (Or.inl rfl))))
      (inline_output_print_hex G _ _ _))
      (inline_output_printf G _ _ _ (Or.inr (Or.inr (Or.inr rfl)))))
      (inline_output_print_hex G _ _ _)
  obtain ⟨mid, hmid, hall⟩ := hmid
  refine ⟨mid, ?_, hall⟩
  unfold print_replaced
  simp only []
  show (print_hex input_back blen _).out ++ [⟨"\n", []⟩] = _
  rw [hmid]
  show (w.out ++ [⟨"REPLACED U+%04x ->", [Arg.uint u]⟩]) ++ mid ++ [⟨"\n", []⟩] = _
  simp only [List.append_assoc, List.singleton_append]
  rfl

theorem printf_if_out (verbose : Int) (fmt : String) (args : List Arg) (w : World σ)
    (hv : verbose ≠ 0) : (printf_if verbose fmt args w).out = w.out ++ [⟨fmt, args⟩] := by
  unfold printf_if
  rw [if_pos hv]
  rfl

/-- What a verbose `test_char` call prints, by outcome: one `printf` of a labelled line for
a forward illegal sequence, another forward error, a discarded character, a backward error
and an empty backward output; the `REPLACED` line for a mismatch; nothing for a match. -/
theorem test_char_verbose_out (L : Libc σ) (G : Globals) (cd cd_back : iconv_t) (u : Nat)
    (input : List Nat) (inputbytes outbuflen : Nat) (verbose : Int) (cd_setup_back : iconv_t)
    (w : World σ) (hv : verbose ≠ 0) :
    ((forward_call L cd input inputbytes outbuflen w).1.res = SIZE_T_MINUS_ONE ∧
      (forward_call L cd input inputbytes outbuflen w).1.errno = L.EILSEQ ∧
      (test_char L G cd cd_back u input inputbytes outbuflen verbose cd_setup_back w).1.ret = 1 ∧
      (test_char L G cd cd_back u input inputbytes outbuflen verbose cd_setup_back w).2.out
        = w.out ++ [⟨"EILSEQ U+%04x\n", [Arg.uint u]⟩]) ∨
    ((forward_call L cd input inputbytes outbuflen w).1.res = SIZE_T_MINUS_ONE ∧
      (forward_call L cd input inputbytes outbuflen w).1.errno ≠ L.EILSEQ ∧
      (test_char L G cd cd_back u input inputbytes outbuflen verbose cd_setup_back w).1.ret
        = -1 ∧
      (test_char L G cd cd_back u input inputbytes outbuflen verbose cd_setup_back w).2.out
        = w.out ++ [⟨"ERROR U+%04x\n", [Arg.uint u]⟩]) ∨
    ((forward_call L cd input inputbytes outbuflen w).1.res ≠ SIZE_T_MINUS_ONE ∧
      size_sub outbuflen (forward_call L cd input inputbytes outbuflen w).1.outbytesleft = 0 ∧
      (test_char L G cd cd_back u input inputbytes outbuflen verbose cd_setup_back w).1.ret = 1 ∧
      (test_char L G cd cd_back u input inputbytes outbuflen verbose cd_setup_back w).2.out
        = w.out ++ [⟨"DISCARDED U+%04x\n", [Arg.uint u]⟩]) ∨
    ((forward_call L cd input inputbytes outbuflen w).1.res ≠ SIZE_T_MINUS_ONE ∧
      size_sub outbuflen (forward_call L cd input inputbytes outbuflen w).1.outbytesleft ≠ 0 ∧
      (test_char L G cd cd_back u input inputbytes outbuflen verbose cd_setup_back w).1.ret
        = -1 ∧
      ((test_char L G cd cd_back u input inputbytes outbuflen verbose cd_setup_back w).2.out
          = w.out ++ [⟨"BACK-ERROR U+%04x %s\n", [Arg.uint u, Arg.str (L.strerror
            (backward_call L cd cd_back input inputbytes outbuflen w).1.errno)]⟩] ∨
        (test_char L G cd cd_back u input inputbytes outbuflen verbose cd_setup_back w).2.out
          = w.out ++ [⟨"BACK-DISCARDED-ERROR U+%04x\n", [Arg.uint u]⟩])) ∨
    ((forward_call L cd input inputbytes outbuflen w).1.res ≠ SIZE_T_MINUS_ONE ∧
      size_sub outbuflen (forward_call L cd input inputbytes outbuflen w).1.outbytesleft ≠ 0 ∧
      (test_char L G cd cd_back u input inputbytes outbuflen verbose cd_setup_back w).1.ret = 2 ∧
      ∃ mid,
        (test_char L G cd cd_back u input inputbytes outbuflen verbose cd_setup_back w).2.out
          = w.out ++ (⟨"REPLACED U+%04x ->", [Arg.uint u]⟩ :: (mid ++ [⟨"\n", []⟩])) ∧
        ∀ p, p ∈ mid → inline_printf G p) ∨
    ((forward_call L cd input inputbytes outbuflen w).1.res ≠ SIZE_T_MINUS_ONE ∧
      size_sub outbuflen (forward_call L cd input inputbytes outbuflen w).1.outbytesleft ≠ 0 ∧
      (test_char L G cd cd_back u input inputbytes outbuflen verbose cd_setup_back w).1.ret = 0 ∧
      (test_char L G cd cd_back u input inputbytes outbuflen verbose cd_setup_back w).2.out
        = w.out) := by
  unfold test_char backward_call forward_call
  simp only []
  split_ifs with a1 a2 a3 a4 a5 a6
  · exact Or.inl ⟨a1, a2, rfl, printf_if_out _ _ _ _ hv⟩
  · exact Or.inr (Or.inl ⟨a1, a2, rfl, printf_if_out _ _ _ _ hv⟩)
  · exact Or.inr (Or.inr (Or.inl ⟨a1, a3, rfl, printf_if_out _ _ _ _ hv⟩))
  · exact Or.inr (Or.inr (Or.inr (Or.inl ⟨a1, a3, rfl, Or.inl (printf_if_out _ _ _ _ hv)⟩)))
  · exact Or.inr (Or.inr (Or.inr (Or.inl ⟨a1, a3, rfl, Or.inr (printf_if_out _ _ _ _ hv)⟩)))
  · exact Or.inr (Or.inr (Or.inr (Or.inr (Or.inl ⟨a1, a3, rfl,
      print_replaced_out L G u _ _ _ _ _ _⟩))))
  · exact Or.inr (Or.inr (Or.inr (Or.inr (Or.inr ⟨a1, a3, rfl, rfl⟩))))

theorem newlines_label (label : String) (h : label ∈ line_labels) :
    newlines label.toList = 0 := by
  simp only [line_labels, List.mem_cons, List.mem_singleton, List.not_mem_nil, or_false] at h
  rcases h with rfl | rfl | rfl | rfl | rfl | rfl | rfl <;> rfl

theorem newlines_line (label : String) (u : Nat) (more : List Char)
    (hl : label ∈ line_labels) (hm : '\n' ∉ more) :
    newlines (label.toList ++ (" U+".toList ++ (fmt_hex 4 u ++ (more ++ ['\n'])))) = 1 := by
  rw [newlines_append, newlines_append, newlines_append, newlines_append,
    newlines_label label hl, newlines_fmt_hex, newlines_eq_zero_of_not_mem more hm]
  rfl

/-- The body of the sweep loop when the first stage returned `0`. -/
theorem sweep_body_of_stage1_ok (L : Libc σ) (G : Globals)
    (cd_setup cd_setup_back cd cd_back : iconv_t) (u : Nat) (w : World σ)
    (h : (stage1 L G cd_setup cd_setup_back u w).1.ret = 0) :
    sweep_body L G cd_setup cd_setup_back cd cd_back u w
      = if (stage2 L G cd_setup cd_setup_back cd cd_back u w).1.ret = 0 then
          printf "OK U+%04x\n" [Arg.uint u] (stage2 L G cd_setup cd_setup_back cd cd_back u w).2
        else (stage2 L G cd_setup cd_setup_back cd cd_back u w).2 := by
  unfold stage1 at h
  unfold sweep_body stage2 stage1
  simp only [h, ne_eq, not_true_eq_false, if_false]

/-- The line a sweep iteration prints when the first stage returned `0`, by outcome of the
second stage: the `printf` calls, the label, the text after the code point, and the
condition on the second stage under which that label is printed. -/
theorem sweep_body_line_cases (L : Libc σ) (G : Globals)
    (cd_setup cd_setup_back cd cd_back : iconv_t) (u : Nat) (w : World σ)
    (h : (stage1 L G cd_setup cd_setup_back u w).1.ret = 0) :
    ∃ (new : List Printf) (label : String) (more : List Char),
      (sweep_body L G cd_setup cd_setup_back cd cd_back u w).out = w.out ++ new ∧
      render new = label.toList ++ (" U+".toList ++ (fmt_hex 4 u ++ (more ++ ['\n']))) ∧
      ('\n' ∉ G.SOURCE_ENCODING.toList → (∀ e, '\n' ∉ (L.strerror e).toList) → '\n' ∉ more) ∧
      ((label = "EILSEQ" ∧
          (stage2_forward L G cd_setup cd_setup_back cd u w).res = SIZE_T_MINUS_ONE ∧
          (stage2_forward L G cd_setup cd_setup_back cd u w).errno = L.EILSEQ ∧
          (stage2 L G cd_setup cd_setup_back cd cd_back u w).1.ret = 1) ∨
        (label = "ERROR" ∧
          (stage2_forward L G cd_setup cd_setup_back cd u w).res = SIZE_T_MINUS_ONE ∧
          (stage2_forward L G cd_setup cd_setup_back cd u w).errno ≠ L.EILSEQ ∧
          (stage2 L G cd_setup cd_setup_back cd cd_back u w).1.ret = -1) ∨
        (label = "DISCARDED" ∧
          (stage2_forward L G cd_setup cd_setup_back cd u w).res ≠ SIZE_T_MINUS_ONE ∧
          size_sub 32 (stage2_forward L G cd_setup cd_setup_back cd u w).outbytesleft = 0 ∧
          (stage2 L G cd_setup cd_setup_back cd cd_back u w).1.ret = 1) ∨
        ((label = "BACK-ERROR" ∨ label = "BACK-DISCARDED-ERROR") ∧
          (stage2_forward L G cd_setup cd_setup_back cd u w).res ≠ SIZE_T_MINUS_ONE ∧
          size_sub 32 (stage2_forward L G cd_setup cd_setup_back cd u w).outbytesleft ≠ 0 ∧
          (stage2 L G cd_setup cd_setup_back cd cd_back u w).1.ret = -1) ∨
        (label = "REPLACED" ∧
          (stage2_forward L G cd_setup cd_setup_back cd u w).res ≠ SIZE_T_MINUS_ONE ∧
          size_sub 32 (stage2_forward L G cd_setup cd_setup_back cd u w).outbytesleft ≠ 0 ∧
          (stage2 L G cd_setup cd_setup_back cd cd_back u w).1.ret = 2) ∨
        (label = "OK" ∧
          (stage2_forward L G cd_setup cd_setup_back cd u w).res ≠ SIZE_T_MINUS_ONE ∧
          size_sub 32 (stage2_forward L G cd_setup cd_setup_back cd u w).outbytesleft ≠ 0 ∧
          (stage2 L G cd_setup cd_setup_back cd cd_back u w).1.ret = 0)) := by
  have hbody := sweep_body_of_stage1_ok L G cd_setup cd_setup_back cd cd_back u w h
  have hq : (stage1 L G cd_setup cd_setup_back u w).2.out = w.out :=
    (test_char_quiet L G cd_setup cd_setup_back u (u32_bytes u) 4 32 NULL w).1
  have hcases := test_char_verbose_out L G cd cd_back u
    (stage1 L G cd_setup cd_setup_back u w).1.output
    (stage1 L G cd_setup cd_setup_back u w).1.outputbytes 32 1 cd_setup_back
    (stage1 L G cd_setup cd_setup_back u w).2 (by decide)
  rw [hq] at hcases
  have hnz : ∀ k : Int, k ≠ 0 →
      (stage2 L G cd_setup cd_setup_back cd cd_back u w).1.ret = k →
      (sweep_body L G cd_setup cd_setup_back cd cd_back u w).out
        = (stage2 L G cd_setup cd_setup_back cd cd_back u w).2.out := by
    intro k hk hret
    rw [hbody, if_neg (by rw [hret]; exact hk)]
  rcases hcases with ⟨f1, f2, hret, hout⟩ | ⟨f1, f2, hret, hout⟩ | ⟨f1, f2, hret, hout⟩ |
    ⟨f1, f2, hret, hout | hout⟩ | ⟨f1, f2, hret, mid, hout, hmid⟩ | ⟨f1, f2, hret, hout⟩
  · refine ⟨[⟨"EILSEQ U+%04x\n", [Arg.uint u]⟩], "EILSEQ", [], ?_, ?_, ?_,
      Or.inl ⟨rfl, f1, f2, hret⟩⟩
    · exact (hnz 1 (by decide) hret).trans hout
    · exact (render_singleton _).trans rfl
    · intro _ _; exact List.not_mem_nil _
  · refine ⟨[⟨"ERROR U+%04x\n", [Arg.uint u]⟩], "ERROR", [], ?_, ?_, ?_,
      Or.inr (Or.inl ⟨rfl, f1, f2, hret⟩)⟩
    · exact (hnz (-1) (by decide) hret).trans hout
    · exact (render_singleton _).trans rfl
    · intro _ _; exact List.not_mem_nil _
  · refine ⟨[⟨"DISCARDED U+%04x\n", [Arg.uint u]⟩], "DISCARDED", [], ?_, ?_, ?_,
      Or.inr (Or.inr (Or.inl ⟨rfl, f1, f2, hret⟩))⟩
    · exact (hnz 1 (by decide) hret).trans hout
    · exact (render_singleton _).trans rfl
    · intro _ _; exact List.not_mem_nil _
  · refine ⟨[⟨"BACK-ERROR U+%04x %s\n", [Arg.uint u, Arg.str (L.strerror (backward_call L cd
        cd_back (stage1 L G cd_setup cd_setup_back u w).1.output
        (stage1 L G cd_setup cd_setup_back u w).1.outputbytes 32
        (stage1 L G cd_setup cd_setup_back u w).2).1.errno)]⟩], "BACK-ERROR",
      ' ' :: (L.strerror (backward_call L cd
        cd_back (stage1 L G cd_setup cd_setup_back u w).1.output
        (stage1 L G cd_setup cd_setup_back u w).1.outputbytes 32
        (stage1 L G cd_setup cd_setup_back u w).2).1.errno).toList, ?_, ?_, ?_,
      Or.inr (Or.inr (Or.inr (Or.inl ⟨Or.inl rfl, f1, f2, hret⟩)))⟩
    · exact (hnz (-1) (by decide) hret).trans hout
    · exact (render_singleton _).trans rfl
    · intro _ herr hmem
      rcases List.mem_cons.1 hmem with e | e
      · exact absurd e (by decide)
      · exact herr _ e
  · refine ⟨[⟨"BACK-DISCARDED-ERROR U+%04x\n", [Arg.uint u]⟩], "BACK-DISCARDED-ERROR", [],
      ?_, ?_, ?_, Or.inr (Or.inr (Or.inr (Or.inl ⟨Or.inr rfl, f1, f2, hret⟩)))⟩
    · exact (hnz (-1) (by decide) hret).trans hout
    · exact (render_singleton _).trans rfl
    · intro _ _; exact List.not_mem_nil _
  · refine ⟨⟨"REPLACED U+%04x ->", [Arg.uint u]⟩ :: (mid ++ [⟨"\n", []⟩]), "REPLACED",
      " ->".toList ++ render mid, ?_, ?_, ?_,
      Or.inr (Or.inr (Or.inr (Or.inr (Or.inl ⟨rfl, f1, f2, hret⟩))))⟩
    · exact (hnz 2 (by decide) hret).trans hout
    · show ("REPLACED U+".toList ++ (fmt_hex 4 u ++ " ->".toList)) ++
        render (mid ++ [⟨"\n", []⟩]) = _
      rw [render_append, render_singleton]
      show ("REPLACED U+".toList ++ (fmt_hex 4 u ++ " ->".toList)) ++ (render mid ++ ['\n'])
        = "REPLACED U+".toList ++ (fmt_hex 4 u ++ ((" ->".toList ++ render mid) ++ ['\n']))
      simp only [List.append_assoc]
    · intro henc _ hmem
      rcases List.mem_append.1 hmem with e | e
      · exact absurd e (by decide)
      · have h0 := newlines_render_inline G henc mid hmid
        unfold newlines at h0
        exact (List.count_eq_zero.1 h0) e
  · refine ⟨[⟨"OK U+%04x\n", [Arg.uint u]⟩], "OK", [], ?_, ?_, ?_,
      Or.inr (Or.inr (Or.inr (Or.inr (Or.inr ⟨rfl, f1, f2, hret⟩))))⟩
    · have hret2 : (stage2 L G cd_setup cd_setup_back cd cd_back u w).1.ret = 0 := hret
      have hout2 : (stage2 L G cd_setup cd_setup_back cd cd_back u w).2.out = w.out := hout
      rw [hbody, if_pos hret2]
      show (stage2 L G cd_setup cd_setup_back cd cd_back u w).2.out ++ _ = _
      rw [hout2]
    · exact (render_singleton _).trans rfl
    · intro _ _; exact List.not_mem_nil _

/-- C12: in the body of the sweep loop, when the first stage (canonical→source) returned
`0`, what the iteration prints is one line: a label, `" U+"`, the code point `u` as `%04x`
(hexadecimal), possibly more text, and the newline.  The label is `OK` iff the second
stage returned `0`, `EILSEQ` iff its forward conversion reported an illegal sequence,
`DISCARDED` iff its forward conversion succeeded with zero output, `REPLACED` iff it
returned `2`, and one of `ERROR`, `BACK-ERROR`, `BACK-DISCARDED-ERROR` iff it returned
`-1`.  The text before the final newline holds no other newline (the text is exactly one
line) as long as the strings passed to `%s`, the source encoding name and the `strerror`
messages, hold none. -/
theorem sweep_body_prints_one_line (L : Libc σ) (G : Globals)
    (cd_setup cd_setup_back cd cd_back : iconv_t) (u : Nat) (w : World σ)
    (h : (stage1 L G cd_setup cd_setup_back u w).1.ret = 0) :
    ∃ (new : List Printf) (label : String) (more : List Char),
      (sweep_body L G cd_setup cd_setup_back cd cd_back u w).out = w.out ++ new ∧
      render new = label.toList ++ (" U+".toList ++ (fmt_hex 4 u ++ (more ++ ['\n']))) ∧
      label ∈ line_labels ∧
      (label = "OK" ↔ (stage2 L G cd_setup cd_setup_back cd cd_back u w).1.ret = 0) ∧
      (label = "EILSEQ" ↔
        (stage2_forward L G cd_setup cd_setup_back cd u w).res = SIZE_T_MINUS_ONE ∧
        (stage2_forward L G cd_setup cd_setup_back cd u w).errno = L.EILSEQ) ∧
      (label = "DISCARDED" ↔
        (stage2_forward L G cd_setup cd_setup_back cd u w).res ≠ SIZE_T_MINUS_ONE ∧
        size_sub 32 (stage2_forward L G cd_setup cd_setup_back cd u w).outbytesleft = 0) ∧
      (label = "REPLACED" ↔ (stage2 L G cd_setup cd_setup_back cd cd_back u w).1.ret = 2) ∧
      (label = "ERROR" ∨ label = "BACK-ERROR" ∨ label = "BACK-DISCARDED-ERROR" ↔
        (stage2 L G cd_setup cd_setup_back cd cd_back u w).1.ret = -1) ∧
      ('\n' ∉ G.SOURCE_ENCODING.toList → (∀ e, '\n' ∉ (L.strerror e).toList) →
        '\n' ∉ more ∧ newlines (render new) = 1) := by
  obtain ⟨new, label, more, hout, hrender, hmore, hcase⟩ :=
    sweep_body_line_cases L G cd_setup cd_setup_back cd cd_back u w h
  have hlabel : label ∈ line_labels := by
    rcases hcase with ⟨rfl, _⟩ | ⟨rfl, _⟩ | ⟨rfl, _⟩ | ⟨rfl | rfl, _⟩ | ⟨rfl, _⟩ | ⟨rfl, _⟩ <;>
      decide
  refine ⟨new, label, more, hout, hrender, hlabel, ?_, ?_, ?_, ?_, ?_, ?_⟩
  · rcases hcase with ⟨rfl, f1, f2, hr⟩ | ⟨rfl, f1, f2, hr⟩ | ⟨rfl, f1, f2, hr⟩ |
      ⟨rfl | rfl, f1, f2, hr⟩ | ⟨rfl, f1, f2, hr⟩ | ⟨rfl, f1, f2, hr⟩ <;> simp [hr]
  · rcases hcase with ⟨rfl, f1, f2, hr⟩ | ⟨rfl, f1, f2, hr⟩ | ⟨rfl, f1, f2, hr⟩ |
      ⟨rfl | rfl, f1, f2, hr⟩ | ⟨rfl, f1, f2, hr⟩ | ⟨rfl, f1, f2, hr⟩ <;> simp [f1, f2]
  · rcases hcase with ⟨rfl, f1, f2, hr⟩ | ⟨rfl, f1, f2, hr⟩ | ⟨rfl, f1, f2, hr⟩ |
      ⟨rfl | rfl, f1, f2, hr⟩ | ⟨rfl, f1, f2, hr⟩ | ⟨rfl, f1, f2, hr⟩ <;> simp [f1, f2]
  · rcases hcase with ⟨rfl, f1, f2, hr⟩ | ⟨rfl, f1, f2, hr⟩ | ⟨rfl, f1, f2, hr⟩ |
      ⟨rfl | rfl, f1, f2, hr⟩ | ⟨rfl, f1, f2, hr⟩ | ⟨rfl, f1, f2, hr⟩ <;> simp [hr]
  · rcases hcase with ⟨rfl, f1, f2, hr⟩ | ⟨rfl, f1, f2, hr⟩ | ⟨rfl, f1, f2, hr⟩ |
      ⟨rfl | rfl, f1, f2, hr⟩ | ⟨rfl, f1, f2, hr⟩ | ⟨rfl, f1, f2, hr⟩ <;> simp [hr]
  · intro henc herr
    have hm := hmore henc herr
    refine ⟨hm, ?_⟩
    rw [hrender]
    exact newlines_line label u more hlabel hm

/-- Witness of C12: the code point `65` with the copying descriptor `1` for the first
stage, the substituting descriptor `5` forward and the copying descriptor `1` backward
for the second stage. -/
theorem sweep_body_prints_one_line_witness :
    ∃ (new : List Printf) (label : String) (more : List Char),
      (sweep_body toyLibc toyGlobals 1 1 5 1 65 world0).out = world0.out ++ new ∧
      render new = label.toList ++ (" U+".toList ++ (fmt_hex 4 65 ++ (more ++ ['\n']))) ∧
      label ∈ line_labels ∧
      (label = "OK" ↔ (stage2 toyLibc toyGlobals 1 1 5 1 65 world0).1.ret = 0) ∧
      (label = "EILSEQ" ↔
        (stage2_forward toyLibc toyGlobals 1 1 5 65 world0).res = SIZE_T_MINUS_ONE ∧
        (stage2_forward toyLibc toyGlobals 1 1 5 65 world0).errno = toyLibc.EILSEQ) ∧
      (label = "DISCARDED" ↔
        (stage2_forward toyLibc toyGlobals 1 1 5 65 world0).res ≠ SIZE_T_MINUS_ONE ∧
        size_sub 32 (stage2_forward toyLibc toyGlobals 1 1 5 65 world0).outbytesleft = 0) ∧
      (label = "REPLACED" ↔ (stage2 toyLibc toyGlobals 1 1 5 1 65 world0).1.ret = 2) ∧
      (label = "ERROR" ∨ label = "BACK-ERROR" ∨ label = "BACK-DISCARDED-ERROR" ↔
        (stage2 toyLibc toyGlobals 1 1 5 1 65 world0).1.ret = -1) ∧
      ('\n' ∉ toyGlobals.SOURCE_ENCODING.toList →
        (∀ e, '\n' ∉ (toyLibc.strerror e).toList) →
        '\n' ∉ more ∧ newlines (render new) = 1) :=
  sweep_body_prints_one_line toyLibc toyGlobals 1 1 5 1 65 world0 (by decide)

end Iconvtest
